import Mathlib

/-!
Verification of the wanpm entity-update protocol.

This file gives a shallow embedding of the data layer of the wanpm
project-management backend (Go + PostgreSQL) and settles the spec's claims
about its optimistic-concurrency update protocol, association
reconciliation, transactional atomicity and error propagation.

Modelling conventions:
* Each SQL table is a `List` of row structures; the columns follow the
  migration DDL (`src/migrations`, `src/unnamed/part_009` … `part_014`).
* A SQL `UPDATE … SET … WHERE … RETURNING` statement is embedded by
  `sqlUpdateReturning`: the new table maps the SET clause over the rows
  satisfying the WHERE condition, and the returned rows are the updated
  matches.  `QueryRow(...).Scan` takes the head of the returned rows and
  yields `sql.ErrNoRows` when there is none.
* A Go transaction (`BeginTx` … `defer tx.Rollback()` … `Commit`) is
  embedded by explicit state passing: each early `return err` yields the
  original state (the deferred rollback discards the working state), and
  only `Commit` publishes the final worked state.
* Machine integers (`int32`, `int`) are modelled as `Int`; the claims never
  approach the overflow boundary, which PostgreSQL would surface as a
  statement error.  Wall-clock times (`time.Now()`, `NOW()`) are an `Int`
  tick passed in by the caller.  Go pointer fields (`*string`, `*int32`)
  are `Option`; float64 coordinate values are `Rat` (no claim does
  floating-point arithmetic on them).
* A `VALUES` list or `IN ( … )` list generated with zero elements is
  malformed SQL — PostgreSQL rejects the statement — modelled as the
  `malformedQuery` error.
-/

/-- Error taxonomy of the data layer (src/unnamed/part_008 and the
per-model error variables), plus the two engine-level failure modes the
embedding models (`malformedQuery` for a statement with an empty
VALUES/IN list, `sqlNoRows` for an unclassified sql.ErrNoRows, and
`otherStore` for any other backing-store failure). -/
inductive DbError where
  | recordNotFound
  | editConflict
  | zeroRowInserted
  | duplicateProjectID
  | duplicateProposalID
  | duplicateTimesheetID
  | duplicateEmail
  | sqlNoRows
  | malformedQuery
  | otherStore
deriving DecidableEq, Repr

/-- Semantics of `UPDATE tbl SET … WHERE cond RETURNING …`: the first
component is the table after applying the SET clause `upd` to every row
satisfying `cond`; the second component is the list of updated rows the
statement returns. -/
def sqlUpdateReturning {ρ : Type} (cond : ρ → Bool) (upd : ρ → ρ) (tbl : List ρ) :
    List ρ × List ρ :=
  (tbl.map (fun r => if cond r then upd r else r), (tbl.filter cond).map upd)

/-- Semantics of a multi-row `INSERT … ON CONFLICT … DO NOTHING`: tuples
are processed in order and a tuple equal to an existing row (including one
inserted earlier in the same statement) is skipped. -/
def insertIgnore {α : Type} [DecidableEq α] (tbl : List α) (rows : List α) : List α :=
  rows.foldl (fun acc x => if x ∈ acc then acc else acc ++ [x]) tbl

/-- Shared control flow of the single-statement Update methods:
run the conditional UPDATE, `Scan` the head of the returned rows into
the caller's struct via `mk`, and map a zero-row result to `err`
(ErrEditConflict for the version-guarded models, the raw sql.ErrNoRows
for ClientModel.Update). -/
def guardedUpdate {ρ β : Type} (err : DbError) (cond : ρ → Bool) (upd : ρ → ρ)
    (mk : ρ → β) (db : List ρ) : List ρ × Except DbError β :=
  let res := sqlUpdateReturning cond upd db
  match res.2 with
  | [] => (db, .error err)
  | r :: _ => (res.1, .ok (mk r))

/-- SQL three-valued equality against a possibly-NULL parameter:
`col = NULL` is never true. -/
def sqlEq {α : Type} [DecidableEq α] (col : Option α) (param : Option α) : Bool :=
  match col, param with
  | some x, some y => x == y
  | _, _ => false

/- ## Client (src/internal/data/client.go) -/

/-- Row of the `client` table. -/
structure ClientRow where
  id : Int
  name : Option String
  address : Option String
  logoURL : Option String
  note : Option String
  version : Int
  createdAt : Int
  updatedAt : Int
deriving DecidableEq, Repr

/-- The Go `Client` struct (pointer fields as `Option`). -/
structure Client where
  id : Int
  name : Option String
  address : Option String
  logoURL : Option String
  note : Option String
  version : Int
  createdAt : Int
  updatedAt : Int
deriving DecidableEq, Repr

/-- ClientModel.Update (client.go:251-270): `UPDATE client SET name = $1,
address = $2, logo_url = $3, note = $4 WHERE id = $5 RETURNING version`.
Note the statement has no version condition and does not touch the
version column; `Scan` returns the raw error (no EditConflict mapping). -/
def ClientModel.Update (db : List ClientRow) (c : Client) :
    List ClientRow × Except DbError Client :=
  guardedUpdate .sqlNoRows
    (fun r => r.id == c.id)
    (fun r => { r with name := c.name, address := c.address,
                       logoURL := c.logoURL, note := c.note })
    (fun r => { c with version := r.version })
    db

/-- ClientModel.GetClientByName (client.go:213-249): first row of
`SELECT … FROM client WHERE name = $1`, ErrRecordNotFound on empty name
or zero rows. -/
def ClientModel.GetClientByName (db : List ClientRow) (name : String) :
    Except DbError ClientRow :=
  if name == ("") then .error .recordNotFound
  else
    match db.find? (fun r => r.name == some name) with
    | none => .error .recordNotFound
    | some r => .ok r

/- ## Role (src/internal/data/role.go) -/

/-- Row of the `role` table. -/
structure RoleRow where
  id : Int
  name : String
  version : Int
  createdAt : Int
  updatedAt : Int
deriving DecidableEq, Repr

/-- The Go `Role` struct. -/
structure Role where
  id : Int
  name : String
  version : Int
  createdAt : Int
  updatedAt : Int
deriving DecidableEq, Repr

/-- RoleModel.Update (role.go:165-196): `UPDATE role SET name = $1,
version = version + 1, updated_at = $2 WHERE id = $3 AND version = $4
RETURNING version, updated_at`; zero rows → ErrEditConflict. -/
def RoleModel.Update (db : List RoleRow) (now : Int) (role : Role) :
    List RoleRow × Except DbError Role :=
  guardedUpdate .editConflict
    (fun r => r.id == role.id && r.version == role.version)
    (fun r => { r with name := role.name, version := r.version + 1, updatedAt := now })
    (fun r => { role with version := r.version, updatedAt := r.updatedAt })
    db

/- ## Activity (src/unnamed/part — activity data file) -/

/-- Row of the `activity` table. -/
structure ActivityRow where
  id : Int
  name : String
  version : Int
  createdAt : Int
  updatedAt : Int
deriving DecidableEq, Repr

/-- The Go `Activity` struct. -/
structure Activity where
  id : Int
  name : String
  version : Int
  createdAt : Int
  updatedAt : Int
deriving DecidableEq, Repr

/-- ActivityModel.Update: `UPDATE activity SET name = $1, version =
version + 1, updated_at = $2 WHERE id = $3 AND version = $4 RETURNING
version, updated_at`; zero rows → ErrEditConflict. -/
def ActivityModel.Update (db : List ActivityRow) (now : Int) (a : Activity) :
    List ActivityRow × Except DbError Activity :=
  guardedUpdate .editConflict
    (fun r => r.id == a.id && r.version == a.version)
    (fun r => { r with name := a.name, version := r.version + 1, updatedAt := now })
    (fun r => { a with version := r.version, updatedAt := r.updatedAt })
    db

/- ## Proposal (src/unnamed/part_006) -/

/-- Row of the `proposal` table (src/unnamed/part_014). -/
structure ProposalRow where
  internalId : Int
  projectId : String
  version : Int
  createdAt : Int
  updatedAt : Int
deriving DecidableEq, Repr

/-- The Go `Proposal` struct. -/
structure Proposal where
  internalId : Int
  externalId : String
  version : Int
  createdAt : Int
  updatedAt : Int
deriving DecidableEq, Repr

/-- ProposalModel.Update (part_006:79-106): `UPDATE proposal SET
project_id = $1, version = version + 1 WHERE internal_id = $2 AND
version = $3 RETURNING version`.  The SET clause does not touch
updated_at or created_at.  Zero rows → ErrEditConflict. -/
def ProposalModel.Update (db : List ProposalRow) (p : Proposal) :
    List ProposalRow × Except DbError Proposal :=
  guardedUpdate .editConflict
    (fun r => r.internalId == p.internalId && r.version == p.version)
    (fun r => { r with projectId := p.externalId, version := r.version + 1 })
    (fun r => { p with version := r.version })
    db

/- ## AppUser (src/internal/data/appuser.go) -/

/-- Row of the `appuser` table with a surrogate integer key
(migration variant referenced by appuser.go). -/
structure AppUserRow where
  internalId : Int
  firstName : String
  lastName : String
  email : String
  passwordHash : List Int
  activated : Bool
  version : Int
  createdAt : Int
  updatedAt : Int
deriving DecidableEq, Repr

/-- The Go `AppUser` struct (password plaintext omitted: never stored). -/
structure AppUser where
  internalId : Int
  firstName : String
  lastName : String
  email : String
  passwordHash : List Int
  activated : Bool
  version : Int
  createdAt : Int
  updatedAt : Int
deriving DecidableEq, Repr

/-- AppUserModel.Update (appuser.go:163-196): `UPDATE appuser SET
first_name = $1, last_name = $2, email = $3, password_hash = $4,
activated = $5, version = version + 1 WHERE internal_id = $6 AND
version = $7 RETURNING version`.  The SET clause does not touch
updated_at or created_at.  Zero rows → ErrEditConflict.  (The unique
e-mail constraint path is not modelled; no claim exercises it.) -/
def AppUserModel.Update (db : List AppUserRow) (u : AppUser) :
    List AppUserRow × Except DbError AppUser :=
  guardedUpdate .editConflict
    (fun r => r.internalId == u.internalId && r.version == u.version)
    (fun r => { r with firstName := u.firstName, lastName := u.lastName,
                       email := u.email, passwordHash := u.passwordHash,
                       activated := u.activated, version := r.version + 1 })
    (fun r => { u with version := r.version })
    db

/- ## User (src/internal/data/user.go, cuid-keyed appuser variant) -/

/-- Row of the cuid-keyed `appuser` table (src/unnamed/part_011). -/
structure UserRow where
  id : String
  email : String
  firstName : String
  lastName : String
  passwordHash : List Int
  activated : Bool
  version : Int
  createdAt : Int
  updatedAt : Int
deriving DecidableEq, Repr

/-- The Go `User` struct. -/
structure User where
  id : String
  email : String
  firstName : String
  lastName : String
  passwordHash : List Int
  activated : Bool
  version : Int
  createdAt : Int
  updatedAt : Int
deriving DecidableEq, Repr

/-- UserModel.Update (user.go:269-302): `UPDATE appuser SET first_name =
$1, last_name = $2, email = $3, password_hash = $4, activated = $5,
version = version + 1, updated_at = now() WHERE id = $6 AND version = $7
RETURNING version`; zero rows → ErrEditConflict.  (`now()` is the `now`
argument; the unique e-mail path is not modelled.) -/
def UserModel.Update (db : List UserRow) (now : Int) (u : User) :
    List UserRow × Except DbError User :=
  guardedUpdate .editConflict
    (fun r => r.id == u.id && r.version == u.version)
    (fun r => { r with firstName := u.firstName, lastName := u.lastName,
                       email := u.email, passwordHash := u.passwordHash,
                       activated := u.activated, version := r.version + 1,
                       updatedAt := now })
    (fun r => { u with version := r.version })
    db

/- ## Timesheet (src/internal/data/timesheet.go) -/

/-- Row of the `timesheet` table (migration 000007). -/
structure TimesheetRow where
  id : String
  userId : String
  projectId : Int
  clientId : Int
  activityId : Int
  workDate : String
  workMinutes : Int
  description : String
  status : String
  version : Int
  createdAt : Int
  updatedAt : Int
deriving DecidableEq, Repr

/-- The Go `Timesheet` struct. -/
structure Timesheet where
  id : String
  userId : String
  projectId : Int
  clientId : Int
  activityId : Int
  workDate : String
  workMinutes : Int
  description : String
  status : String
  version : Int
  createdAt : Int
  updatedAt : Int
deriving DecidableEq, Repr

/-- The timesheet store: the primary table and its four join tables
(timesheet_project, timesheet_client, timesheet_appuser,
timesheet_activity; migrations 000015/000016/000018 and part_013). -/
structure TimesheetDB where
  timesheet : List TimesheetRow
  timesheetProject : List (String × Int)
  timesheetClient : List (String × Int)
  timesheetAppuser : List (String × String)
  timesheetActivity : List (String × Int)
deriving DecidableEq, Repr

/-- TimesheetModel.Insert (timesheet.go:189-310).  `beginTxOk` is the
outcome of `m.DB.BeginTx`: the source handles its failure with
`return nil`, reporting success without inserting anything.  Otherwise:
the primary INSERT (version/created_at/updated_at from the DDL defaults,
duplicate id → ErrDuplicateTimesheetID per the unique-constraint match),
then one row into each join table, then Commit. -/
def TimesheetModel.Insert (db : TimesheetDB) (now : Int) (beginTxOk : Bool)
    (t : Timesheet) : TimesheetDB × Except DbError Timesheet :=
  if !beginTxOk then (db, .ok t)
  else if db.timesheet.any (fun r => r.id == t.id) then
    (db, .error .duplicateTimesheetID)
  else
    let row : TimesheetRow :=
      { id := t.id, userId := t.userId, projectId := t.projectId,
        clientId := t.clientId, activityId := t.activityId,
        workDate := t.workDate, workMinutes := t.workMinutes,
        description := t.description, status := t.status,
        version := 1, createdAt := now, updatedAt := now }
    ({ timesheet := db.timesheet ++ [row],
       timesheetClient := db.timesheetClient ++ [(t.id, t.clientId)],
       timesheetProject := db.timesheetProject ++ [(t.id, t.projectId)],
       timesheetAppuser := db.timesheetAppuser ++ [(t.id, t.userId)],
       timesheetActivity := db.timesheetActivity ++ [(t.id, t.activityId)] },
     .ok { t with version := 1, createdAt := now, updatedAt := now })

/-- TimesheetModel.Update (timesheet.go:816-908): inside one transaction,
the guarded `UPDATE timesheet SET … version = version + 1, updated_at =
$8 WHERE id = $9 AND version = $10 RETURNING version` (zero rows →
ErrEditConflict), then unconditional single-column UPDATEs of
timesheet_project, timesheet_client and timesheet_activity keyed by
timesheet_id, then Commit. -/
def TimesheetModel.Update (db : TimesheetDB) (now : Int) (t : Timesheet) :
    TimesheetDB × Except DbError Timesheet :=
  let res := sqlUpdateReturning
    (fun r => r.id == t.id && r.version == t.version)
    (fun r => { r with userId := t.userId, projectId := t.projectId,
                       clientId := t.clientId, activityId := t.activityId,
                       workDate := t.workDate, workMinutes := t.workMinutes,
                       description := t.description,
                       version := r.version + 1, updatedAt := now })
    db.timesheet
  match res.2 with
  | [] => (db, .error .editConflict)
  | r :: _ =>
    let tp := db.timesheetProject.map
      (fun pr => if pr.1 == t.id then (pr.1, t.projectId) else pr)
    let tc := db.timesheetClient.map
      (fun pr => if pr.1 == t.id then (pr.1, t.clientId) else pr)
    let ta := db.timesheetActivity.map
      (fun pr => if pr.1 == t.id then (pr.1, t.activityId) else pr)
    ({ db with timesheet := res.1, timesheetProject := tp,
               timesheetClient := tc, timesheetActivity := ta },
     .ok { t with version := r.version })

/-- Modelled from the spec: the pagination helper `calculateMetadata`
(and the `Filters`/`Metadata` definitions) are not under src/; only
their call sites are.  The spec treats pagination as boilerplate, so the
model records the inputs; the Go zero value `Metadata spaced` is the
all-zero record. -/
structure Metadata where
  totalRecords : Int := 0
  page : Int := 0
  pageSize : Int := 0
deriving DecidableEq, Repr

/-- Modelled from the spec: see `Metadata`. -/
def calculateMetadata (totalRecords page pageSize : Int) : Metadata :=
  { totalRecords := totalRecords, page := page, pageSize := pageSize }

/-- Trimmed scan target of TimesheetModel.GetAll (the nested
user/project/client/activity JSON objects are irrelevant to the claims
and omitted). -/
structure JoinedTimesheet where
  id : String
  workDate : String
  workMinutes : Int
  description : String
  status : String
  version : Int
deriving DecidableEq, Repr

/-- Row-scanning loop of TimesheetModel.GetAll (timesheet.go:617-675).
Each element of `scanned` is the outcome of `rows.Scan` for one result
row (the window count paired with the row).  On a scan error the source
executes `return nil, Metadata spaced, nil`: a nil slice, the zero
metadata and a nil error.  The triple mirrors Go's multi-return with a
nilable error.  (The jsonb unmarshal steps, whose errors are returned as
errors, are not modelled.) -/
def TimesheetModel.GetAll (scanned : List (Except DbError (Int × JoinedTimesheet)))
    (page pageSize : Int) :
    Option (List JoinedTimesheet) × Metadata × Option DbError :=
  go scanned 0 []
where
  go : List (Except DbError (Int × JoinedTimesheet)) → Int → List JoinedTimesheet →
      Option (List JoinedTimesheet) × Metadata × Option DbError
  | [], total, acc => (some acc, calculateMetadata total page pageSize, none)
  | .error _ :: _, _, _ => (none, {}, none)
  | .ok (cnt, jt) :: rest, _, acc => go rest cnt (acc ++ [jt])

/- ## Project, first generation (src/internal/data/project.go) -/

/-- A client as attached to a project (Go `ProjectClient`).  The Go
struct holds `*int32` for the id, but every construction site
(createProjectHandler / updateProjectHandler) fills it from a non-pointer
`client.InternalID`, and the data layer dereferences it; the model uses
the plain integer. -/
structure ProjectClient where
  clientID : Int
  clientName : Option String
  clientLogo : Option String
  clientAddress : Option String
  clientNote : Option String
deriving DecidableEq, Repr

/-- Row of the `project` table (migration inside 000015, first
generation: a geometry column and no feature/note).  `geom` is the point
stored by `ST_GeomFromText`: `none` for POINT EMPTY, otherwise the
coordinate list. -/
structure ProjectRow where
  internalId : Int
  externalId : Option Int
  proposalId : Option String
  name : Option String
  status : Option String
  geom : Option (List Rat)
  images : Option (List String)
  version : Int
  createdAt : Int
  updatedAt : Int
deriving DecidableEq, Repr

/-- The Go `Project` struct (project.go:45-57). -/
structure Project where
  internalId : Int
  externalId : Option Int
  proposalId : Option String
  name : Option String
  status : Option String
  coordinates : Option (List Rat)
  images : Option (List String)
  clients : List ProjectClient
  version : Int
  createdAt : Int
  updatedAt : Int
deriving DecidableEq, Repr

/-- The project store: project table, project_client join table
(pairs project_internal_id × client id) and the serial counter for
internal_id.  The client table is included for Get's LEFT JOIN. -/
structure ProjectDB where
  project : List ProjectRow
  projectClient : List (Int × Int)
  client : List ClientRow
  nextInternalId : Int
deriving DecidableEq, Repr

/-- Association synchronisation inside ProjectModel.Update
(project.go:401-434): `DELETE FROM project_client WHERE
project_internal_id = $1 AND client_internal_id NOT IN ( … )` followed by
`INSERT INTO project_client … ON CONFLICT (project_internal_id,
client_internal_id) DO NOTHING` over the desired pairs. -/
def syncClients (pid : Int) (ids : List Int) (j : List (Int × Int)) :
    List (Int × Int) :=
  insertIgnore
    (j.filter (fun pr => !(pr.1 == pid && !(ids.contains pr.2))))
    (ids.map (fun c => (pid, c)))

/-- Go fmt's %f verb formats a float with exactly 6 decimal places; on
the Rat stand-in for the float64 payload this is rounding to the nearest
multiple of 10^-6.  (Half-way cases in Go follow the binary float64
representation and are outside the model; no claim exercises one.) -/
def fmtFloat6 (x : Rat) : Rat :=
  (⌊x * 1000000 + 1 / 2⌋ : Rat) / 1000000

/-- The geometry value stored by the `geomText` construction of
ProjectModel.Insert (project.go:196-199): POINT EMPTY for nil
coordinates, otherwise the point built from the %f-formatted first two
elements — so the stored longitude and latitude are quantized to 6
decimal places.  (The source indexes elements 0 and 1 directly; a
shorter non-nil list would panic in Go and is excluded by the upstream
validation.) -/
def geomFromText (coords : Option (List Rat)) : Option (List Rat) :=
  match coords with
  | none => none
  | some l => some [fmtFloat6 (l.getD 0 0), fmtFloat6 (l.getD 1 0)]

/-- ProjectModel.Insert (project.go:195-278): inside one transaction, the
primary INSERT (internal_id from the serial counter, version/timestamps
from the DDL defaults, the geometry column from the %f-formatted
`geomText` — see `geomFromText` — and duplicate project_id/proposal_id
mapped to the dedicated errors per the unique-constraint matches), then
the multi-row INSERT into project_client — whose generated VALUES list
is malformed when the client list is empty — then Commit. -/
def ProjectModel.Insert (db : ProjectDB) (now : Int) (p : Project) :
    ProjectDB × Except DbError Project :=
  if db.project.any (fun r => r.externalId == p.externalId) then
    (db, .error .duplicateProjectID)
  else if db.project.any (fun r => r.proposalId == p.proposalId) then
    (db, .error .duplicateProposalID)
  else
    let iid := db.nextInternalId
    let row : ProjectRow :=
      { internalId := iid, externalId := p.externalId,
        proposalId := p.proposalId, name := p.name, status := p.status,
        geom := geomFromText p.coordinates, images := p.images,
        version := 1, createdAt := now, updatedAt := now }
    let clientIDs := p.clients.map (fun c => c.clientID)
    if clientIDs.isEmpty then (db, .error .malformedQuery)
    else
      ({ db with project := db.project ++ [row],
                 projectClient := db.projectClient ++ clientIDs.map (fun c => (iid, c)),
                 nextInternalId := iid + 1 },
       .ok { p with internalId := iid, version := 1,
                    createdAt := now, updatedAt := now })

/-- Clients aggregated by ProjectModel.Get's LEFT JOIN of project_client
and client (the jsonb object per associated client). -/
def clientsOf (db : ProjectDB) (iid : Int) : List ProjectClient :=
  (db.projectClient.filter (fun pr => pr.1 == iid)).filterMap (fun pr =>
    (db.client.find? (fun c => c.id == pr.2)).map (fun c =>
      { clientID := c.id, clientName := c.name, clientLogo := c.logoURL,
        clientAddress := c.address, clientNote := c.note }))

/-- ProjectModel.Get (project.go:280-349): ErrRecordNotFound for
externalID < 1 or when no project row carries the external id; otherwise
the row's columns plus the aggregated clients. -/
def ProjectModel.Get (db : ProjectDB) (externalID : Int) :
    Except DbError Project :=
  if externalID < 1 then .error .recordNotFound
  else
    match db.project.find? (fun r => r.externalId == some externalID) with
    | none => .error .recordNotFound
    | some r =>
      .ok { internalId := r.internalId, externalId := r.externalId,
            proposalId := r.proposalId, name := r.name, status := r.status,
            coordinates := r.geom, images := r.images,
            clients := clientsOf db r.internalId,
            version := r.version, createdAt := r.createdAt,
            updatedAt := r.updatedAt }

/-- ProjectModel.Update (project.go:351-442): normalise an empty images
slice to nil; inside one transaction run the guarded `UPDATE project SET
… version = version + 1, updated_at = $7 WHERE internal_id = $8 AND
version = $9 RETURNING version, created_at, updated_at` (zero rows →
ErrEditConflict), then the project_client delete/insert pair
(`syncClients`) — whose generated NOT IN and VALUES lists are malformed
when the client list is empty, failing the statement and rolling back the
version bump — then Commit.  `normalizeImages` is the normalisation of an
empty images slice to nil at project.go:356-358.  The geometry column is
kept as the coordinate list here: the update properties proved below
concern version arithmetic, conflict signalling, rollback and join-table
framing, none of which depends on the coordinate payload; the %f
quantization of the stored point (`geomFromText`) matters only to the
insert/fetch round-trip and is modelled there. -/
def normalizeImages (images : Option (List String)) : Option (List String) :=
  match images with
  | some l => if l.isEmpty then none else some l
  | none => none

/-- See `ProjectModel.Update` below. -/
def ProjectModel.Update (db : ProjectDB) (now : Int) (p : Project) :
    ProjectDB × Except DbError Project :=
  let images := normalizeImages p.images
  let res := sqlUpdateReturning
    (fun r => r.internalId == p.internalId && r.version == p.version)
    (fun r => { r with externalId := p.externalId, proposalId := p.proposalId,
                       name := p.name, status := p.status,
                       geom := p.coordinates, images := images,
                       version := r.version + 1, updatedAt := now })
    db.project
  match res.2 with
  | [] => (db, .error .editConflict)
  | r :: _ =>
    let ids := p.clients.map (fun c => c.clientID)
    if ids.isEmpty then (db, .error .malformedQuery)
    else
      ({ db with project := res.1,
                 projectClient := syncClients p.internalId ids db.projectClient },
       .ok { p with version := r.version, createdAt := r.createdAt,
                    updatedAt := r.updatedAt })

/- ## Project, second generation (src/unnamed/part_007) -/

namespace Part007

/-- Row of the second-generation `project` table (migration 000006:
feature jsonb and note replace the geometry column).  The feature value
is kept as its serialised jsonb text, exactly what the Go handler passes
(`string(json.Marshal(...))`). -/
structure ProjectRow where
  internalId : Int
  externalId : Option Int
  proposalId : Option String
  name : Option String
  status : Option String
  feature : Option String
  note : Option String
  images : Option (List String)
  version : Int
  createdAt : Int
  updatedAt : Int
deriving DecidableEq, Repr

/-- The Go `ProjectAssignmentRequest` struct (pointer fields as
`Option`; part_007 Update binds the pointers directly, so NULLs flow
through). -/
structure ProjectAssignmentRequest where
  employeeId : Option String
  roleId : Option Int
deriving DecidableEq, Repr

/-- Row of the `assignment` table (src/unnamed/part_012), as written by
part_007 Update (which binds possibly-nil pointers). -/
structure AssignmentRow where
  projectId : Option Int
  employeeId : Option String
  roleId : Option Int
deriving DecidableEq, Repr

/-- The Go `ProjectRequest` struct (part_007:62-76).  `assignments` is
`Option` because the Go slice's nil/non-nil distinction steers the
assignment-synchronisation block. -/
structure ProjectRequest where
  internalId : Int
  externalId : Option Int
  proposalId : Option String
  name : Option String
  status : Option String
  feature : Option String
  note : Option String
  images : Option (List String)
  clients : List ProjectClient
  assignments : Option (List ProjectAssignmentRequest)
  version : Int
  createdAt : Int
  updatedAt : Int
deriving DecidableEq, Repr

/-- The second-generation project store: project table, project_client
join table (project_internal_id × client_id) and the assignment table
(keyed by the external project_id). -/
structure ProjectDB where
  project : List ProjectRow
  projectClient : List (Int × Int)
  assignment : List AssignmentRow
deriving DecidableEq, Repr

/-- ProjectModel.Update (part_007:480-598): inside one transaction, the
guarded `UPDATE project SET … version = version + 1, updated_at = $7
WHERE internal_id = $8 AND version = $9 RETURNING version, created_at,
updated_at` (zero rows → ErrEditConflict); then the project_client
delete/insert pair (`syncClients`, malformed when the client list is
empty); then, only when the Assignments slice is non-nil, `DELETE FROM
assignment WHERE project_id = $1` (three-valued equality against the
possibly-NULL external id) followed — only when the slice is non-empty —
by a plain multi-row INSERT; then Commit. -/
def ProjectModel.Update (db : ProjectDB) (now : Int) (p : ProjectRequest) :
    ProjectDB × Except DbError ProjectRequest :=
  let res := sqlUpdateReturning
    (fun r => r.internalId == p.internalId && r.version == p.version)
    (fun r => { r with externalId := p.externalId, proposalId := p.proposalId,
                       name := p.name, status := p.status,
                       feature := p.feature, images := p.images,
                       version := r.version + 1, updatedAt := now })
    db.project
  match res.2 with
  | [] => (db, .error .editConflict)
  | r :: _ =>
    let ids := p.clients.map (fun c => c.clientID)
    if ids.isEmpty then (db, .error .malformedQuery)
    else
      let pc := syncClients p.internalId ids db.projectClient
      match p.assignments with
      | none =>
        ({ db with project := res.1, projectClient := pc },
         .ok { p with version := r.version, createdAt := r.createdAt,
                      updatedAt := r.updatedAt })
      | some asg =>
        let afterDel := db.assignment.filter
          (fun a => !(sqlEq a.projectId p.externalId))
        let afterIns :=
          if asg.isEmpty then afterDel
          else afterDel ++ asg.map (fun a =>
            { projectId := p.externalId, employeeId := a.employeeId,
              roleId := a.roleId })
        ({ db with project := res.1, projectClient := pc,
                   assignment := afterIns },
         .ok { p with version := r.version, createdAt := r.createdAt,
                      updatedAt := r.updatedAt })

end Part007

/- ## Validation (src/internal/data/project.go and the validator
package) -/

/-- Modelled from the spec: the `internal/validator` package is not under
src/ (only its call sites are).  Per the spec's ValidationError taxonomy,
a validator accumulates keyed error messages: `Check` records the key and
message when the condition is false, `Valid` holds when nothing was
recorded, and `Validator.Unique` demands pairwise-distinct values. -/
structure Validator where
  errors : List (String × String) := []
deriving DecidableEq, Repr

/-- Modelled from the spec: see `Validator`. -/
def Validator.Check (v : Validator) (ok : Bool) (key msg : String) : Validator :=
  if ok then v else { errors := v.errors ++ [(key, msg)] }

/-- Modelled from the spec: see `Validator`. -/
def Validator.Valid (v : Validator) : Bool :=
  v.errors.isEmpty

/-- Modelled from the spec: see `Validator`. -/
def Validator.Unique (xs : List String) : Bool :=
  xs.eraseDups.length == xs.length

/-- The Go `ProjectInput` struct (project.go:35-43): the decoded PATCH
body, with absent JSON fields as `none`. -/
structure ProjectInput where
  externalId : Option Int
  proposalId : Option String
  name : Option String
  status : Option String
  coordinates : Option (List Rat)
  images : Option (List String)
  clientNames : Option (List String)
deriving DecidableEq, Repr

/-- ValidateUpdatingProjectInput (project.go:110-146) is a straight-line
sequence of per-field if-blocks; each block is transcribed as its own
step below and the function is their composition.  Byte lengths use the
UTF-8 byte size, matching Go's len on strings; `len` on a nil slice
is 0. -/
def vupExternalId (v : Validator) (p : ProjectInput) : Validator :=
  match p.externalId with
  | some eid => v.Check (eid > 0) ("project_id") ("must be a positive integer")
  | none => v

/-- Step of ValidateUpdatingProjectInput; see `vupExternalId`. -/
def vupProposalId (v : Validator) (p : ProjectInput) : Validator :=
  match p.proposalId with
  | some s =>
    (v.Check (s != ("")) ("proposal_id") ("must note be empty string")).Check
      (s.utf8ByteSize ≤ 10) ("proposal_id") ("must not be more than 10 bytes long")
  | none => v

/-- Step of ValidateUpdatingProjectInput; see `vupExternalId`. -/
def vupName (v : Validator) (p : ProjectInput) : Validator :=
  match p.name with
  | some s =>
    (v.Check (s != ("")) ("name") ("must not be empty string")).Check
      (s.utf8ByteSize ≤ 500) ("name") ("must not be more than 500 bytes long")
  | none => v

/-- Step of ValidateUpdatingProjectInput; see `vupExternalId`. -/
def vupStatus (v : Validator) (p : ProjectInput) : Validator :=
  match p.status with
  | some s =>
    (v.Check (s != ("")) ("status") ("must not be empty string")).Check
      (s.utf8ByteSize ≤ 100) ("status") ("must not be more than 100 bytes long")
  | none => v

/-- Step of ValidateUpdatingProjectInput; see `vupExternalId`. -/
def vupClientNames (v : Validator) (p : ProjectInput) : Validator :=
  match p.clientNames with
  | some ns =>
    (v.Check (ns.length ≥ 1) ("client_names") ("must contain at least 1 client")).Check
      (Validator.Unique ns) ("client_names") ("must not contain duplicate values")
  | none => v

/-- Step of ValidateUpdatingProjectInput; see `vupExternalId`. -/
def vupCoordinates (v : Validator) (p : ProjectInput) : Validator :=
  let coords := p.coordinates.getD []
  if coords.length > 0 then
    let v := v.Check (coords.length == 2) ("coordinates")
      ("must be a longitude, latitude pair")
    if coords.length == 2 then
      (v.Check (coords.getD 0 0 ≥ -180 && coords.getD 0 0 ≤ 180) ("coordinates")
        ("longitude must be in between -180 and 180")).Check
        (coords.getD 1 0 ≥ -90 && coords.getD 1 0 ≤ 90) ("coordinates")
        ("latitude must be in between -90 and 90")
    else v
  else v

/-- Step of ValidateUpdatingProjectInput; see `vupExternalId`. -/
def vupImages (v : Validator) (p : ProjectInput) : Validator :=
  let imgs := p.images.getD []
  if imgs.length > 0 then
    v.Check (Validator.Unique imgs) ("images") ("must not contain duplicate values")
  else v

/-- ValidateUpdatingProjectInput (project.go:110-146): the composition of
the per-field steps, in source order. -/
def ValidateUpdatingProjectInput (v : Validator) (p : ProjectInput) : Validator :=
  vupImages (vupCoordinates (vupClientNames (vupStatus (vupName (vupProposalId
    (vupExternalId v p) p) p) p) p) p) p

/- ## HTTP handler fragments (src/unnamed/part_002, src/cmd/api/timesheet.go) -/

/-- The response helpers of the application (cmd/api errors file),
as abstract outcomes. -/
inductive HandlerResponse where
  | okResponse
  | badRequestResponse
  | notFoundResponse
  | failedValidationResponse
  | serverErrorResponse
  | editConflictResponse
deriving DecidableEq, Repr

/-- Client-name resolution loop of updateProjectHandler
(part_002:210-231): each name goes through ClientModel.GetClientByName;
ErrRecordNotFound aborts with a failed-validation response, any other
error with a server-error response; otherwise a ProjectClient is
appended. -/
def resolveClientNames (clientTbl : List ClientRow) :
    List String → List ProjectClient → Except HandlerResponse (List ProjectClient)
  | [], acc => .ok acc
  | n :: rest, acc =>
    match ClientModel.GetClientByName clientTbl n with
    | .error .recordNotFound => .error .failedValidationResponse
    | .error _ => .error .serverErrorResponse
    | .ok c =>
      resolveClientNames clientTbl rest
        (acc ++ [{ clientID := c.id, clientName := c.name,
                   clientLogo := c.logoURL, clientAddress := c.address,
                   clientNote := c.note }])

/-- Clients submitted by updateProjectHandler (part_002:210-234): a nil
client_names field re-submits the currently stored client set unchanged;
a non-nil list is resolved name by name. -/
def updateProjectHandlerClients (clientTbl : List ClientRow)
    (clientNames : Option (List String)) (stored : List ProjectClient) :
    Except HandlerResponse (List ProjectClient) :=
  match clientNames with
  | none => .ok stored
  | some names => resolveClientNames clientTbl names []

/-- Error dispatch after app.models.Project.Update in
updateProjectHandler (part_002:236-245): ErrEditConflict maps to the
edit-conflict response, everything else to the server-error response. -/
def updateProjectHandlerOnUpdateError (e : DbError) : HandlerResponse :=
  match e with
  | .editConflict => .editConflictResponse
  | _ => .serverErrorResponse

/-- Validation gate of updateProjectHandler (part_002:182-186): the PATCH
body passes `ValidateUpdatingProjectInput` on a fresh validator, else the
handler stops with a failed-validation response before any store call. -/
def updateProjectHandlerValidates (input : ProjectInput) : Bool :=
  (ValidateUpdatingProjectInput { errors := [] } input).Valid

/-- Go runtime faults the embedding surfaces explicitly. -/
inductive RuntimeError where
  | nilPointerDereference
deriving DecidableEq, Repr

/-- Description-defaulting step of createTimesheetHandler
(cmd/api/timesheet.go:24-26): the source runs
`if input.Description == nil` and then assigns through the nil pointer
(`*input.Description = ""`), a runtime panic; a non-nil description is
left as is. -/
def createTimesheetHandlerDescriptionStep (d : Option String) :
    Except RuntimeError (Option String) :=
  match d with
  | none => .error .nilPointerDereference
  | some s => .ok (some s)

/-- ValidateProjectInputRequired (project.go:73-79): presence checks on
the create body. -/
def ValidateProjectInputRequired (v : Validator) (p : ProjectInput) : Validator :=
  ((((v.Check (p.externalId != none) ("project_id") ("must be provided")).Check
    (p.proposalId != none) ("proposal_id") ("must be provided")).Check
    (p.name != none) ("name") ("must be provided")).Check
    (p.status != none) ("status") ("must be provided")).Check
    (p.clientNames != none) ("client_names") ("must be provided")

/-- ValidateProjectInputSemantic (project.go:81-108): semantic checks on
the create body.  The source dereferences the four pointer fields
unconditionally — the handler runs the Required pass first — so a nil
field there is a runtime panic, returned explicitly here; `len` on a nil
slice is 0. -/
def ValidateProjectInputSemantic (v : Validator) (p : ProjectInput) :
    Except RuntimeError Validator :=
  match p.externalId, p.proposalId, p.name, p.status with
  | some eid, some pid, some nm, some st =>
    let v := v.Check (eid > 0) ("project_id") ("must be a positive integer")
    let v := (v.Check (pid != ("")) ("proposal_id")
      ("must not be empty string")).Check
      (pid.utf8ByteSize ≤ 10) ("proposal_id")
      ("must not be more than 10 bytes long")
    let v := (v.Check (nm != ("")) ("name") ("must not be empty string")).Check
      (nm.utf8ByteSize ≤ 500) ("name") ("must not be more than 500 bytes long")
    let v := (v.Check (st != ("")) ("status") ("must not be empty string")).Check
      (st.utf8ByteSize ≤ 100) ("status") ("must not be more than 100 bytes long")
    let v := (v.Check ((p.clientNames.getD []).length ≥ 1) ("client_names")
      ("must contain at least 1 client")).Check
      (Validator.Unique (p.clientNames.getD [])) ("client_names")
      ("must not contain duplicate values")
    let v := match p.coordinates with
      | some l =>
        let v := v.Check (l.length == 2) ("coordinates")
          ("must be a longitude, latitude pair")
        if l.length == 2 then
          (v.Check (l.getD 0 0 ≥ -180 && l.getD 0 0 ≤ 180) ("coordinates")
            ("longitude must be in between -180 and 180")).Check
            (l.getD 1 0 ≥ -90 && l.getD 1 0 ≤ 90) ("coordinates")
            ("latitude must be in between -90 and 90")
        else v
      | none => v
    let v := match p.images with
      | some imgs =>
        (v.Check (imgs.length ≥ 1) ("images")
          ("must contain at least 1 image")).Check
          (Validator.Unique imgs) ("images")
          ("must not contain duplicate values")
      | none => v
    .ok v
  | _, _, _, _ => .error .nilPointerDereference

/- ## Concrete fixtures for the scenario theorems and witnesses -/

/-- A stored client row. -/
def acmeClientRow : ClientRow :=
  { id := 10, name := some ("Acme"), address := none, logoURL := none,
    note := none, version := 1, createdAt := 0, updatedAt := 0 }

/-- A second stored client row. -/
def skynetClientRow : ClientRow :=
  { id := 11, name := some ("Skynet"), address := none, logoURL := none,
    note := none, version := 1, createdAt := 0, updatedAt := 0 }

/-- A stored client row at version 2. -/
def clientRowV2 : ClientRow :=
  { id := 7, name := some ("Old"), address := none, logoURL := none,
    note := none, version := 2, createdAt := 0, updatedAt := 0 }

/-- An update request carrying the stale version 1 for `clientRowV2`. -/
def staleClientReq : Client :=
  { id := 7, name := some ("New"), address := none, logoURL := none,
    note := none, version := 1, createdAt := 0, updatedAt := 0 }

/-- The stored project row of the spec scenario (project 24001 at
version 1, associated with client Acme). -/
def sampleProjectRow : ProjectRow :=
  { internalId := 1, externalId := some 24001, proposalId := some ("P001-24"),
    name := some ("Sample"), status := some ("active"), geom := none,
    images := none, version := 1, createdAt := 0, updatedAt := 0 }

/-- The project store of the spec scenario. -/
def sampleProjectDB : ProjectDB :=
  { project := [sampleProjectRow], projectClient := [(1, 10)],
    client := [acmeClientRow, skynetClientRow], nextInternalId := 2 }

/-- Acme as a project association. -/
def acmeProjectClient : ProjectClient :=
  { clientID := 10, clientName := some ("Acme"), clientLogo := none,
    clientAddress := none, clientNote := none }

/-- Skynet as a project association. -/
def skynetProjectClient : ProjectClient :=
  { clientID := 11, clientName := some ("Skynet"), clientLogo := none,
    clientAddress := none, clientNote := none }

/-- The spec scenario's update request: clients Acme and Skynet at the
correct version 1. -/
def sampleUpdateRequest : Project :=
  { internalId := 1, externalId := some 24001, proposalId := some ("P001-24"),
    name := some ("Sample"), status := some ("active"), coordinates := none,
    images := none, clients := [acmeProjectClient, skynetProjectClient],
    version := 1, createdAt := 0, updatedAt := 0 }

/-- A fresh insert request for the round-trip scenario. -/
def sampleInsertRequest : Project :=
  { internalId := 0, externalId := some 24001, proposalId := some ("P001-24"),
    name := some ("Sample"), status := some ("active"), coordinates := none,
    images := none, clients := [acmeProjectClient], version := 0,
    createdAt := 0, updatedAt := 0 }

/-- An empty project store holding only the Acme client. -/
def emptyProjectDB : ProjectDB :=
  { project := [], projectClient := [], client := [acmeClientRow],
    nextInternalId := 1 }

/-- A stored proposal row whose updated_at is 5. -/
def proposalRow5 : ProposalRow :=
  { internalId := 3, projectId := ("P9"), version := 1, createdAt := 2,
    updatedAt := 5 }

/-- A proposal update request at the correct version 1. -/
def proposalReq9 : Proposal :=
  { internalId := 3, externalId := ("P9X"), version := 1, createdAt := 0,
    updatedAt := 0 }

/-- A stored appuser row whose updated_at is 5. -/
def appUserRow5 : AppUserRow :=
  { internalId := 4, firstName := ("Ada"), lastName := ("L"),
    email := ("a@b.c"), passwordHash := [1], activated := true,
    version := 1, createdAt := 2, updatedAt := 5 }

/-- An appuser update request at the correct version 1. -/
def appUserReq9 : AppUser :=
  { internalId := 4, firstName := ("Ada"), lastName := ("Lovelace"),
    email := ("a@b.c"), passwordHash := [1], activated := true,
    version := 1, createdAt := 0, updatedAt := 0 }

/-- A second-generation project row at version 1. -/
def p7Row : Part007.ProjectRow :=
  { internalId := 1, externalId := some 24001, proposalId := some ("P001-24"),
    name := some ("Sample"), status := some ("active"), feature := none,
    note := none, images := none, version := 1, createdAt := 0, updatedAt := 0 }

/-- A second-generation project store with clients Acme and Skynet
associated and one assignment row. -/
def p7DB : Part007.ProjectDB :=
  { project := [p7Row], projectClient := [(1, 10), (1, 11)],
    assignment := [{ projectId := some 24001, employeeId := some ("e1"),
                     roleId := some 2 }] }

/-- A second-generation update request with the client_names field
resubmitting the stored set and the assignments field omitted. -/
def p7Req : Part007.ProjectRequest :=
  { internalId := 1, externalId := some 24001, proposalId := some ("P001-24"),
    name := some ("Sample"), status := some ("active"), feature := none,
    note := none, images := none,
    clients := [acmeProjectClient, skynetProjectClient],
    assignments := none, version := 1, createdAt := 0, updatedAt := 0 }

/-- A PATCH body whose client_names field is the explicitly empty list
(all other fields omitted). -/
def emptyClientNamesInput : ProjectInput :=
  { externalId := none, proposalId := none, name := none, status := none,
    coordinates := none, images := none, clientNames := some [] }

/-- A create body that passes both create validators and whose longitude
`mkRat 10000001 10000000` is 1.0000001 — 7 decimal places, within
[-180, 180]. -/
def geoProjectInput : ProjectInput :=
  { externalId := some 24001, proposalId := some ("P001-24"),
    name := some ("Sample"), status := some ("active"),
    coordinates := some [mkRat 10000001 10000000, 2], images := none,
    clientNames := some [("Acme")] }

/-- The insert request the create handler builds from `geoProjectInput`
(client names resolved to the stored Acme row). -/
def geoInsertRequest : Project :=
  { internalId := 0, externalId := some 24001, proposalId := some ("P001-24"),
    name := some ("Sample"), status := some ("active"),
    coordinates := some [mkRat 10000001 10000000, 2], images := none,
    clients := [acmeProjectClient], version := 0, createdAt := 0,
    updatedAt := 0 }

/- ## Generic lemmas about the SQL statement semantics -/

theorem sqlUpdateReturning_snd_eq_nil {ρ : Type} (cond : ρ → Bool) (upd : ρ → ρ)
    (tbl : List ρ) (h : ∀ r ∈ tbl, cond r = false) :
    (sqlUpdateReturning cond upd tbl).2 = [] := by
  have : tbl.filter cond = [] := by
    rw [List.filter_eq_nil_iff]
    intro a ha
    simp [h a ha]
  simp [sqlUpdateReturning, this]

theorem sqlUpdateReturning_snd_cons {ρ : Type} {cond : ρ → Bool} {upd : ρ → ρ}
    {tbl : List ρ} {x : ρ} {xs : List ρ}
    (h : (sqlUpdateReturning cond upd tbl).2 = x :: xs) :
    ∃ r, r ∈ tbl ∧ cond r = true ∧ x = upd r := by
  unfold sqlUpdateReturning at h
  simp only at h
  cases hf : tbl.filter cond with
  | nil => rw [hf] at h; simp at h
  | cons r rs =>
    rw [hf] at h
    simp only [List.map_cons, List.cons.injEq] at h
    have hr : r ∈ tbl.filter cond := by rw [hf]; exact List.mem_cons_self r rs
    have := List.mem_filter.mp hr
    exact ⟨r, this.1, this.2, h.1.symm⟩

theorem sqlUpdateReturning_mem_fst_pos {ρ : Type} {cond : ρ → Bool} {upd : ρ → ρ}
    {tbl : List ρ} {r : ρ} (hr : r ∈ tbl) (hc : cond r = true) :
    upd r ∈ (sqlUpdateReturning cond upd tbl).1 := by
  unfold sqlUpdateReturning
  have := List.mem_map_of_mem (fun r => if cond r then upd r else r) hr
  simpa [hc] using this

theorem sqlUpdateReturning_mem_fst_neg {ρ : Type} {cond : ρ → Bool} {upd : ρ → ρ}
    {tbl : List ρ} {r : ρ} (hr : r ∈ tbl) (hc : cond r = false) :
    r ∈ (sqlUpdateReturning cond upd tbl).1 := by
  unfold sqlUpdateReturning
  have := List.mem_map_of_mem (fun r => if cond r then upd r else r) hr
  simpa [hc] using this

theorem mem_insertIgnore_of_mem {α : Type} [DecidableEq α] {tbl rows : List α}
    {a : α} (h : a ∈ tbl) : a ∈ insertIgnore tbl rows := by
  induction rows generalizing tbl with
  | nil => simpa [insertIgnore] using h
  | cons x xs ih =>
    unfold insertIgnore at *
    simp only [List.foldl_cons]
    by_cases hx : x ∈ tbl
    · simp only [if_pos hx]
      exact ih h
    · simp only [if_neg hx]
      exact ih (List.mem_append_left _ h)

theorem mem_insertIgnore_iff {α : Type} [DecidableEq α] {tbl rows : List α}
    {a : α} : a ∈ insertIgnore tbl rows ↔ a ∈ tbl ∨ a ∈ rows := by
  induction rows generalizing tbl with
  | nil => simp [insertIgnore]
  | cons x xs ih =>
    unfold insertIgnore at *
    simp only [List.foldl_cons]
    by_cases hx : x ∈ tbl
    · rw [if_pos hx, ih]
      constructor
      · rintro (h | h)
        · exact Or.inl h
        · exact Or.inr (List.mem_cons_of_mem _ h)
      · rintro (h | h)
        · exact Or.inl h
        · rcases List.mem_cons.mp h with h | h
          · exact Or.inl (h ▸ hx)
          · exact Or.inr h
    · rw [if_neg hx, ih]
      constructor
      · rintro (h | h)
        · rcases List.mem_append.mp h with h | h
          · exact Or.inl h
          · simp only [List.mem_singleton] at h
            exact Or.inr (h ▸ List.mem_cons_self x xs)
        · exact Or.inr (List.mem_cons_of_mem _ h)
      · rintro (h | h)
        · exact Or.inl (List.mem_append_left _ h)
        · rcases List.mem_cons.mp h with h | h
          · exact Or.inl (List.mem_append_right _ (by simp [h]))
          · exact Or.inr h

theorem insertIgnore_eq_of_subset {α : Type} [DecidableEq α] {tbl rows : List α}
    (h : ∀ x ∈ rows, x ∈ tbl) : insertIgnore tbl rows = tbl := by
  induction rows with
  | nil => rfl
  | cons x xs ih =>
    unfold insertIgnore at *
    simp only [List.foldl_cons, if_pos (h x (List.mem_cons_self x xs))]
    exact ih (fun y hy => h y (List.mem_cons_of_mem _ hy))

theorem guardedUpdate_stale {ρ β : Type} {err : DbError} {cond : ρ → Bool}
    {upd : ρ → ρ} {mk : ρ → β} {db : List ρ}
    (h : ∀ r ∈ db, cond r = false) :
    guardedUpdate err cond upd mk db = (db, .error err) := by
  have hnil := sqlUpdateReturning_snd_eq_nil cond upd db h
  simp only [guardedUpdate]
  rw [hnil]

theorem guardedUpdate_ok {ρ β : Type} {err : DbError} {cond : ρ → Bool}
    {upd : ρ → ρ} {mk : ρ → β} {db db' : List ρ} {b : β}
    (h : guardedUpdate err cond upd mk db = (db', .ok b)) :
    ∃ r, r ∈ db ∧ cond r = true ∧ b = mk (upd r) ∧ upd r ∈ db' ∧
      db' = (sqlUpdateReturning cond upd db).1 := by
  simp only [guardedUpdate] at h
  split at h
  · simp at h
  · rename_i r rest heq
    have hr := sqlUpdateReturning_snd_cons heq
    obtain ⟨r0, hr0, hc0, hx⟩ := hr
    obtain ⟨hdb, hb⟩ := Prod.mk.injEq .. ▸ h
    simp only [Except.ok.injEq] at hb
    refine ⟨r0, hr0, hc0, ?_, ?_, hdb.symm⟩
    · rw [← hb, hx]
    · rw [← hdb, hx] at *
      exact sqlUpdateReturning_mem_fst_pos hr0 hc0

theorem mem_syncClients_of_target {pid : Int} {ids : List Int}
    {j : List (Int × Int)} {c : Int} (h : c ∈ ids) :
    (pid, c) ∈ syncClients pid ids j := by
  unfold syncClients
  rw [mem_insertIgnore_iff]
  exact Or.inr (List.mem_map_of_mem _ h)

theorem syncClients_snd_mem_ids {pid : Int} {ids : List Int}
    {j : List (Int × Int)} {pr : Int × Int}
    (h : pr ∈ syncClients pid ids j) (hp : pr.1 = pid) : pr.2 ∈ ids := by
  unfold syncClients at h
  rw [mem_insertIgnore_iff] at h
  rcases h with h | h
  · have := List.mem_filter.mp h
    have hcond := this.2
    simp only [hp, beq_self_eq_true, Bool.true_and, Bool.not_not] at hcond
    exact List.mem_of_elem_eq_true hcond
  · obtain ⟨c, hc, hpr⟩ := List.mem_map.mp h
    rw [← hpr]
    exact hc

theorem syncClients_eq_of_synced {pid : Int} {ids : List Int}
    {j : List (Int × Int)}
    (h1 : ∀ c ∈ ids, (pid, c) ∈ j)
    (h2 : ∀ pr ∈ j, pr.1 = pid → pr.2 ∈ ids) :
    syncClients pid ids j = j := by
  unfold syncClients
  have hfil : j.filter (fun pr => !(pr.1 == pid && !(ids.contains pr.2))) = j := by
    rw [List.filter_eq_self]
    intro pr hpr
    by_cases hp : pr.1 = pid
    · have := h2 pr hpr hp
      simp [hp]
      exact this
    · simp [hp]
  rw [hfil]
  apply insertIgnore_eq_of_subset
  intro x hx
  obtain ⟨c, hc, hxc⟩ := List.mem_map.mp hx
  rw [← hxc]
  exact h1 c hc

theorem guardedUpdate_ok_of_match {ρ β : Type} {err : DbError} {cond : ρ → Bool}
    {upd : ρ → ρ} {mk : ρ → β} {db : List ρ} {r : ρ}
    (hr : r ∈ db) (hc : cond r = true) :
    ∃ db' b, guardedUpdate err cond upd mk db = (db', .ok b) := by
  simp only [guardedUpdate]
  cases hsnd : (sqlUpdateReturning cond upd db).2 with
  | nil =>
    exfalso
    have hmem : r ∈ db.filter cond := List.mem_filter.mpr ⟨hr, hc⟩
    unfold sqlUpdateReturning at hsnd
    simp only at hsnd
    rw [List.map_eq_nil_iff] at hsnd
    rw [hsnd] at hmem
    simp at hmem
  | cons x xs =>
    exact ⟨_, _, rfl⟩

theorem projectUpdate_err {db db' : ProjectDB} {now : Int} {p : Project}
    {e : DbError} (h : ProjectModel.Update db now p = (db', .error e)) :
    db' = db := by
  simp only [ProjectModel.Update] at h
  split at h
  · exact ((Prod.mk.injEq ..).mp h).1.symm
  · split at h
    · exact ((Prod.mk.injEq ..).mp h).1.symm
    · simp at h

theorem projectUpdate_stale {db : ProjectDB} {now : Int} {p : Project}
    (h : ∀ r ∈ db.project, ¬(r.internalId = p.internalId ∧ r.version = p.version)) :
    ProjectModel.Update db now p = (db, .error .editConflict) := by
  have hfil : db.project.filter
      (fun r => r.internalId == p.internalId && r.version == p.version) = [] := by
    rw [List.filter_eq_nil_iff]
    intro r hr
    have hrr := h r hr
    simp only [Bool.and_eq_true, beq_iff_eq]
    exact hrr
  simp only [ProjectModel.Update, sqlUpdateReturning]
  rw [hfil]
  simp

theorem projectUpdate_ok_char {db db' : ProjectDB} {now : Int} {p p' : Project}
    (h : ProjectModel.Update db now p = (db', .ok p')) :
    ∃ r ∈ db.project, r.internalId = p.internalId ∧ r.version = p.version ∧
      p'.version = r.version + 1 ∧ p'.createdAt = r.createdAt ∧ p'.updatedAt = now ∧
      ({ r with externalId := p.externalId, proposalId := p.proposalId,
                name := p.name, status := p.status, geom := p.coordinates,
                images := normalizeImages p.images,
                version := r.version + 1, updatedAt := now } : ProjectRow)
        ∈ db'.project ∧
      db'.projectClient =
        syncClients p.internalId (p.clients.map (fun c => c.clientID)) db.projectClient ∧
      db'.client = db.client ∧ db'.nextInternalId = db.nextInternalId ∧
      p.clients ≠ [] := by
  simp only [ProjectModel.Update] at h
  split at h
  · simp at h
  · rename_i r rest heq
    split at h
    · simp at h
    · rename_i hids
      obtain ⟨r0, hr0, hc0, hx⟩ := sqlUpdateReturning_snd_cons heq
      simp only [Bool.and_eq_true, beq_iff_eq] at hc0
      obtain ⟨hdb, hok⟩ := (Prod.mk.injEq ..).mp h
      simp only [Except.ok.injEq] at hok
      refine ⟨r0, hr0, hc0.1, hc0.2, ?_, ?_, ?_, ?_, ?_, ?_, ?_, ?_⟩
      · rw [← hok]; rw [hx]
      · rw [← hok]; rw [hx]
      · rw [← hok]; rw [hx]
      · rw [← hdb]
        exact sqlUpdateReturning_mem_fst_pos hr0 (by simp [hc0])
      · rw [← hdb]
      · rw [← hdb]
      · rw [← hdb]
      · intro hnil
        rw [hnil] at hids
        simp at hids

theorem projectUpdate_empty_clients {db : ProjectDB} {now : Int} {p : Project}
    (hmatch : ∃ r ∈ db.project, r.internalId = p.internalId ∧ r.version = p.version)
    (hempty : p.clients = []) :
    ProjectModel.Update db now p = (db, .error .malformedQuery) := by
  obtain ⟨r, hr, hid, hv⟩ := hmatch
  simp only [ProjectModel.Update]
  cases hsnd : (sqlUpdateReturning
      (fun r => r.internalId == p.internalId && r.version == p.version)
      (fun r => { r with externalId := p.externalId, proposalId := p.proposalId,
                         name := p.name, status := p.status,
                         geom := p.coordinates, images := normalizeImages p.images,
                         version := r.version + 1, updatedAt := now })
      db.project).2 with
  | nil =>
    exfalso
    have hmem : r ∈ db.project.filter
        (fun r => r.internalId == p.internalId && r.version == p.version) :=
      List.mem_filter.mpr ⟨hr, by simp [hid, hv]⟩
    unfold sqlUpdateReturning at hsnd
    simp only at hsnd
    rw [List.map_eq_nil_iff] at hsnd
    rw [hsnd] at hmem
    simp at hmem
  | cons x xs =>
    simp [hempty]

theorem part007Update_err {db db' : Part007.ProjectDB} {now : Int}
    {p : Part007.ProjectRequest} {e : DbError}
    (h : Part007.ProjectModel.Update db now p = (db', .error e)) :
    db' = db := by
  simp only [Part007.ProjectModel.Update] at h
  split at h
  · exact ((Prod.mk.injEq ..).mp h).1.symm
  · split at h
    · exact ((Prod.mk.injEq ..).mp h).1.symm
    · split at h
      · simp at h
      · simp at h

theorem part007Update_ok_char {db db' : Part007.ProjectDB} {now : Int}
    {p p' : Part007.ProjectRequest}
    (h : Part007.ProjectModel.Update db now p = (db', .ok p')) :
    ∃ r ∈ db.project, r.internalId = p.internalId ∧ r.version = p.version ∧
      p'.version = r.version + 1 ∧ p'.updatedAt = now ∧
      ({ r with externalId := p.externalId, proposalId := p.proposalId,
                name := p.name, status := p.status, feature := p.feature,
                images := p.images,
                version := r.version + 1, updatedAt := now } : Part007.ProjectRow)
        ∈ db'.project ∧
      db'.projectClient =
        syncClients p.internalId (p.clients.map (fun c => c.clientID)) db.projectClient ∧
      (p.assignments = none → db'.assignment = db.assignment) ∧
      (∀ asg, p.assignments = some asg →
        db'.assignment =
          (if asg.isEmpty then
            db.assignment.filter (fun a => !(sqlEq a.projectId p.externalId))
          else
            db.assignment.filter (fun a => !(sqlEq a.projectId p.externalId)) ++
              asg.map (fun a =>
                { projectId := p.externalId, employeeId := a.employeeId,
                  roleId := a.roleId }))) ∧
      p.clients ≠ [] := by
  simp only [Part007.ProjectModel.Update] at h
  split at h
  · simp at h
  · rename_i r rest heq
    split at h
    · simp at h
    · rename_i hids
      obtain ⟨r0, hr0, hc0, hx⟩ := sqlUpdateReturning_snd_cons heq
      simp only [Bool.and_eq_true, beq_iff_eq] at hc0
      have hcne : p.clients ≠ [] := by
        intro hnil
        rw [hnil] at hids
        simp at hids
      split at h
      · rename_i hasg
        obtain ⟨hdb, hok⟩ := (Prod.mk.injEq ..).mp h
        simp only [Except.ok.injEq] at hok
        refine ⟨r0, hr0, hc0.1, hc0.2, ?_, ?_, ?_, ?_, ?_, ?_, hcne⟩
        · rw [← hok]; rw [hx]
        · rw [← hok]; rw [hx]
        · rw [← hdb]
          exact sqlUpdateReturning_mem_fst_pos hr0 (by simp [hc0])
        · rw [← hdb]
        · intro _
          rw [← hdb]
        · intro asg hasg'
          rw [hasg] at hasg'
          exact absurd hasg' (by simp)
      · rename_i asg hasg
        obtain ⟨hdb, hok⟩ := (Prod.mk.injEq ..).mp h
        simp only [Except.ok.injEq] at hok
        refine ⟨r0, hr0, hc0.1, hc0.2, ?_, ?_, ?_, ?_, ?_, ?_, hcne⟩
        · rw [← hok]; rw [hx]
        · rw [← hok]; rw [hx]
        · rw [← hdb]
          exact sqlUpdateReturning_mem_fst_pos hr0 (by simp [hc0])
        · rw [← hdb]
        · intro hnone
          rw [hasg] at hnone
          exact absurd hnone (by simp)
        · intro asg' hasg'
          rw [hasg] at hasg'
          simp only [Option.some.injEq] at hasg'
          rw [← hasg']
          rw [← hdb]

theorem timesheetUpdate_err {db db' : TimesheetDB} {now : Int} {t : Timesheet}
    {e : DbError} (h : TimesheetModel.Update db now t = (db', .error e)) :
    db' = db := by
  simp only [TimesheetModel.Update] at h
  split at h
  · exact ((Prod.mk.injEq ..).mp h).1.symm
  · simp at h

theorem timesheetUpdate_stale {db : TimesheetDB} {now : Int} {t : Timesheet}
    (h : ∀ r ∈ db.timesheet, ¬(r.id = t.id ∧ r.version = t.version)) :
    TimesheetModel.Update db now t = (db, .error .editConflict) := by
  have hfil : db.timesheet.filter
      (fun r => r.id == t.id && r.version == t.version) = [] := by
    rw [List.filter_eq_nil_iff]
    intro r hr
    have hrr := h r hr
    simp only [Bool.and_eq_true, beq_iff_eq]
    exact hrr
  simp only [TimesheetModel.Update, sqlUpdateReturning]
  rw [hfil]
  simp

theorem timesheetUpdate_ok_char {db db' : TimesheetDB} {now : Int}
    {t t' : Timesheet}
    (h : TimesheetModel.Update db now t = (db', .ok t')) :
    ∃ r ∈ db.timesheet, r.id = t.id ∧ r.version = t.version ∧
      t'.version = r.version + 1 ∧
      ({ r with userId := t.userId, projectId := t.projectId,
                clientId := t.clientId, activityId := t.activityId,
                workDate := t.workDate, workMinutes := t.workMinutes,
                description := t.description,
                version := r.version + 1, updatedAt := now } : TimesheetRow)
        ∈ db'.timesheet := by
  simp only [TimesheetModel.Update] at h
  split at h
  · simp at h
  · rename_i r rest heq
    obtain ⟨r0, hr0, hc0, hx⟩ := sqlUpdateReturning_snd_cons heq
    simp only [Bool.and_eq_true, beq_iff_eq] at hc0
    obtain ⟨hdb, hok⟩ := (Prod.mk.injEq ..).mp h
    simp only [Except.ok.injEq] at hok
    refine ⟨r0, hr0, hc0.1, hc0.2, ?_, ?_⟩
    · rw [← hok]; rw [hx]
    · rw [← hdb]
      exact sqlUpdateReturning_mem_fst_pos hr0 (by simp [hc0])

theorem check_errors_append (v : Validator) (b : Bool) (k m : String) :
    ∃ t, (Validator.Check v b k m).errors = v.errors ++ t := by
  unfold Validator.Check
  by_cases hb : b = true
  · exact ⟨[], by simp [hb]⟩
  · exact ⟨[(k, m)], by simp [hb]⟩

theorem errors_append_trans {a b c : List (String × String)}
    (h1 : ∃ t, b = a ++ t) (h2 : ∃ t, c = b ++ t) : ∃ t, c = a ++ t := by
  obtain ⟨t1, h1⟩ := h1
  obtain ⟨t2, h2⟩ := h2
  exact ⟨t1 ++ t2, by rw [h2, h1, List.append_assoc]⟩

theorem vupCoordinates_append (v : Validator) (p : ProjectInput) :
    ∃ t, (vupCoordinates v p).errors = v.errors ++ t := by
  unfold vupCoordinates
  by_cases h1 : (p.coordinates.getD []).length > 0
  · simp only [h1, if_pos]
    by_cases h2 : (p.coordinates.getD []).length == 2
    · simp only [h2, if_pos]
      exact errors_append_trans (check_errors_append ..)
        (errors_append_trans (check_errors_append ..) (check_errors_append ..))
    · rw [if_neg (by simpa using h2)]
      exact check_errors_append ..
  · simp only [if_neg h1]
    exact ⟨[], by simp⟩

theorem vupImages_append (v : Validator) (p : ProjectInput) :
    ∃ t, (vupImages v p).errors = v.errors ++ t := by
  unfold vupImages
  by_cases h1 : (p.images.getD []).length > 0
  · simp only [h1, if_pos]
    exact check_errors_append ..
  · simp only [if_neg h1]
    exact ⟨[], by simp⟩

theorem vupClientNames_some_nil (v : Validator) (p : ProjectInput)
    (h : p.clientNames = some []) :
    (vupClientNames v p).errors =
      v.errors ++ [(("client_names"), ("must contain at least 1 client"))] := by
  unfold vupClientNames
  rw [h]
  have he : ([] : List String).eraseDups = [] := rfl
  simp [Validator.Check, Validator.Unique, he]

/-- C6: Reconciling an entity's associations to the same desired set
twice is idempotent: the delete statement removes nothing on the second
pass (every surviving pair for the primary id is in the desired set) and
the ON CONFLICT DO NOTHING insert adds nothing (every desired pair is
already present), so the second reconcile produces no additional join
rows — and no error, the conflicting tuples being skipped rather than
rejected. -/
theorem syncClients_idempotent (pid : Int) (ids : List Int) (j : List (Int × Int)) :
    syncClients pid ids (syncClients pid ids j) = syncClients pid ids j :=
  syncClients_eq_of_synced
    (fun _ hc => mem_syncClients_of_target hc)
    (fun _ hpr hp => syncClients_snd_mem_ids hpr hp)

/-- C8 (code bug): TimesheetModel.Insert executes `return nil` when
BeginTx fails, reporting success for a timesheet that was never stored;
and the row-scan loop of TimesheetModel.GetAll executes
`return nil, Metadata spaced, nil` on a scan error, swallowing the store
error into a nil-error empty result.  Both contradict the spec's
propagation rule that store errors are returned with their kind
preserved. -/
theorem timesheet_insert_getall_swallow_errors :
    (∀ (db : TimesheetDB) (now : Int) (t : Timesheet),
      TimesheetModel.Insert db now false t = (db, .ok t)) ∧
    (∀ page pageSize : Int,
      TimesheetModel.GetAll [.error .otherStore] page pageSize =
        (none, {}, none)) := by
  constructor
  · intro db now t
    rfl
  · intro page pageSize
    rfl

/-- C10 (code bug): createTimesheetHandler's description-defaulting step
panics on a body whose description field is omitted — the source guards
`if input.Description == nil` and then assigns through that very nil
pointer — instead of defaulting the missing description to the empty
string; a present description passes through untouched. -/
theorem create_timesheet_nil_description_panics :
    createTimesheetHandlerDescriptionStep none = .error .nilPointerDereference ∧
    ∀ s, createTimesheetHandlerDescriptionStep (some s) = .ok (some s) :=
  ⟨rfl, fun _ => rfl⟩

/-- C1 (counterexample): ClientModel.Update accepts a caller-supplied
version (1) that is stale for the stored row (version 2): the update
succeeds — no conflict error — overwriting the row's fields while
leaving the stored version at 2, so the stored version neither increases
by 1 nor is the stale caller rejected. -/
theorem clientModel_update_ignores_stale_version :
    ClientModel.Update [clientRowV2] staleClientReq =
      ([{ clientRowV2 with name := some ("New") }],
       .ok { staleClientReq with version := 2 }) := by
  rfl

/-- C9 (counterexample): a successful ProposalModel.Update at tick 10 on
a row whose updated_at is 5 leaves updated_at at 5 — the SET clause
touches only project_id and version — and AppUserModel.Update behaves
the same way, while ProjectModel.Update does set updated_at; so Proposal
and AppUser updates do not refresh the last-update timestamp as the
Project update does. -/
theorem proposal_appuser_update_keep_updated_at :
    ProposalModel.Update [proposalRow5] proposalReq9 =
      ([{ proposalRow5 with projectId := ("P9X"), version := 2 }],
       .ok { proposalReq9 with version := 2 }) ∧
    AppUserModel.Update [appUserRow5] appUserReq9 =
      ([{ appUserRow5 with lastName := ("Lovelace"), version := 2 }],
       .ok { appUserReq9 with version := 2 }) ∧
    ({ proposalRow5 with projectId := ("P9X"), version := 2 } : ProposalRow).updatedAt = 5 ∧
    ({ appUserRow5 with lastName := ("Lovelace"), version := 2 } : AppUserRow).updatedAt = 5 := by
  refine ⟨rfl, rfl, rfl, rfl⟩

/-- C3 (counterexample): a PATCH body whose client_names is the
explicitly empty list does not clear the project's associations — it
never reaches the store: ValidateUpdatingProjectInput records the
client_names must-contain-at-least-1-client error, the handler's
validation gate fails, and even a direct store call with an empty client
list fails with a malformed statement (empty NOT IN / VALUES list),
leaving the store unchanged. -/
theorem empty_client_names_rejected :
    updateProjectHandlerValidates emptyClientNamesInput = false ∧
    (ValidateUpdatingProjectInput { errors := [] } emptyClientNamesInput).errors =
      [(("client_names"), ("must contain at least 1 client"))] ∧
    ProjectModel.Update sampleProjectDB 5 { sampleUpdateRequest with clients := [] } =
      (sampleProjectDB, .error .malformedQuery) := by
  refine ⟨rfl, rfl, rfl⟩

/-- C2: a conditional write matching zero rows (stale version or
concurrently deleted row) makes ProjectModel.Update return
ErrEditConflict — a distinct error from ErrRecordNotFound, which Get
uses for an absent primary key — and updateProjectHandler maps it to the
edit-conflict response; concretely, after the scenario project is
updated from version 1 to version 2, retrying the same update with the
stale version 1 yields ErrEditConflict. -/
theorem update_zero_rows_edit_conflict :
    (∀ (db : ProjectDB) (now : Int) (p : Project),
      (∀ r ∈ db.project, ¬(r.internalId = p.internalId ∧ r.version = p.version)) →
      ProjectModel.Update db now p = (db, .error .editConflict)) ∧
    DbError.editConflict ≠ DbError.recordNotFound ∧
    updateProjectHandlerOnUpdateError .editConflict = .editConflictResponse ∧
    (ProjectModel.Update sampleProjectDB 5 sampleUpdateRequest).2 =
      .ok { sampleUpdateRequest with version := 2, updatedAt := 5 } ∧
    ProjectModel.Update (ProjectModel.Update sampleProjectDB 5 sampleUpdateRequest).1
        6 sampleUpdateRequest =
      ((ProjectModel.Update sampleProjectDB 5 sampleUpdateRequest).1,
       .error .editConflict) := by
  refine ⟨?_, by decide, rfl, rfl, rfl⟩
  intro db now p h
  exact projectUpdate_stale h

/-- Witness for C2's zero-row clause at a concrete store: the scenario
update against an empty project table reports an edit conflict and
leaves the store untouched. -/
theorem update_zero_rows_edit_conflict_witness :
    ProjectModel.Update emptyProjectDB 0 sampleUpdateRequest =
      (emptyProjectDB, .error .editConflict) :=
  update_zero_rows_edit_conflict.1 emptyProjectDB 0 sampleUpdateRequest
    (by intro r hr; simp [emptyProjectDB] at hr)

/-- C4: the association statements run in the same transaction as the
version-guarded primary update: every error outcome of either
generation's ProjectModel.Update returns the original store (the
deferred rollback discards the version bump and any join-table work);
every success commits the bumped row together with the reconciled
project_client set (and, second generation, the assignment rules); and
a failing association statement (empty client list → malformed NOT
IN/VALUES) rolls back an already-executed version bump. -/
theorem update_transaction_atomicity :
    (∀ (db db' : ProjectDB) (now : Int) (p : Project) (e : DbError),
      ProjectModel.Update db now p = (db', .error e) → db' = db) ∧
    (∀ (db db' : Part007.ProjectDB) (now : Int) (p : Part007.ProjectRequest)
        (e : DbError),
      Part007.ProjectModel.Update db now p = (db', .error e) → db' = db) ∧
    (∀ (db db' : ProjectDB) (now : Int) (p p' : Project),
      ProjectModel.Update db now p = (db', .ok p') →
      ∃ r ∈ db.project, r.internalId = p.internalId ∧ r.version = p.version ∧
        ({ r with externalId := p.externalId, proposalId := p.proposalId,
                  name := p.name, status := p.status, geom := p.coordinates,
                  images := normalizeImages p.images,
                  version := r.version + 1, updatedAt := now } : ProjectRow)
          ∈ db'.project ∧
        db'.projectClient =
          syncClients p.internalId (p.clients.map (fun c => c.clientID))
            db.projectClient) ∧
    (∀ (db db' : Part007.ProjectDB) (now : Int) (p p' : Part007.ProjectRequest),
      Part007.ProjectModel.Update db now p = (db', .ok p') →
      db'.projectClient =
        syncClients p.internalId (p.clients.map (fun c => c.clientID))
          db.projectClient ∧
      (p.assignments = none → db'.assignment = db.assignment)) ∧
    (∀ (db : ProjectDB) (now : Int) (p : Project),
      (∃ r ∈ db.project, r.internalId = p.internalId ∧ r.version = p.version) →
      p.clients = [] →
      ProjectModel.Update db now p = (db, .error .malformedQuery)) := by
  refine ⟨?_, ?_, ?_, ?_, ?_⟩
  · intro db db' now p e h
    exact projectUpdate_err h
  · intro db db' now p e h
    exact part007Update_err h
  · intro db db' now p p' h
    obtain ⟨r, hr, h1, h2, _, _, _, hmem, hpc, _, _, _⟩ := projectUpdate_ok_char h
    exact ⟨r, hr, h1, h2, hmem, hpc⟩
  · intro db db' now p p' h
    obtain ⟨r, hr, _, _, _, _, _, hpc, hnone, _, _⟩ := part007Update_ok_char h
    exact ⟨hpc, hnone⟩
  · intro db now p hm he
    exact projectUpdate_empty_clients hm he

/-- Witness for C4's rollback clause: against the concrete scenario
store, an update whose client list is empty fails its association
statement and the already-matched version bump is rolled back — the
returned store is the original one. -/
theorem update_transaction_atomicity_witness :
    ProjectModel.Update sampleProjectDB 7 { sampleUpdateRequest with clients := [] } =
      (sampleProjectDB, .error .malformedQuery) :=
  update_transaction_atomicity.2.2.2.2 sampleProjectDB 7
    { sampleUpdateRequest with clients := [] }
    ⟨sampleProjectRow, by simp [sampleProjectDB], by decide, by decide⟩
    rfl

/-- C5: an omitted association field leaves the stored association set
unchanged: updateProjectHandler resubmits the stored client set when
client_names is nil, and a nil Assignments slice skips the assignment
statements entirely; reconciling the client join table against exactly
the stored set is then a no-op, so a successful update leaves both
project_client and assignment exactly as they were. -/
theorem omitted_association_frame :
    (∀ (tbl : List ClientRow) (stored : List ProjectClient),
      updateProjectHandlerClients tbl none stored = .ok stored) ∧
    (∀ (db db' : Part007.ProjectDB) (now : Int) (p p' : Part007.ProjectRequest),
      Part007.ProjectModel.Update db now p = (db', .ok p') →
      p.assignments = none →
      (∀ c ∈ p.clients.map (fun c => c.clientID), (p.internalId, c) ∈ db.projectClient) →
      (∀ pr ∈ db.projectClient, pr.1 = p.internalId →
        pr.2 ∈ p.clients.map (fun c => c.clientID)) →
      db'.projectClient = db.projectClient ∧ db'.assignment = db.assignment) := by
  constructor
  · intro tbl stored
    rfl
  · intro db db' now p p' h hasg h1 h2
    obtain ⟨r, hr, _, _, _, _, _, hpc, hnone, _, _⟩ := part007Update_ok_char h
    refine ⟨?_, hnone hasg⟩
    rw [hpc]
    exact syncClients_eq_of_synced h1 h2

/-- Witness for C5 at a concrete store: resubmitting the stored clients
with assignments omitted commits an update whose join tables are
unchanged. -/
theorem omitted_association_frame_witness :
    (Part007.ProjectModel.Update p7DB 5 p7Req).1.projectClient = p7DB.projectClient ∧
    (Part007.ProjectModel.Update p7DB 5 p7Req).1.assignment = p7DB.assignment :=
  omitted_association_frame.2 p7DB (Part007.ProjectModel.Update p7DB 5 p7Req).1
    5 p7Req { p7Req with version := 2, updatedAt := 5 }
    rfl rfl (by decide) (by decide)

/-- C1 (amended): the optimistic-concurrency protocol — a committed
update increments the stored version by exactly 1 and a stale
caller-supplied version is rejected with ErrEditConflict — holds for
Role, Activity, Proposal, AppUser, User, Timesheet and Project, but not
for Client: ClientModel.Update issues an unconditional write keyed only
by id, so it succeeds regardless of the caller's version and leaves the
stored version unchanged. -/
theorem versioned_update_protocol_amended :
    (∀ (db db' : List RoleRow) (now : Int) (x x' : Role),
      RoleModel.Update db now x = (db', .ok x') →
      x'.version = x.version + 1 ∧
      ∃ r ∈ db, r.id = x.id ∧ r.version = x.version ∧
        ({ r with name := x.name, version := r.version + 1,
                  updatedAt := now } : RoleRow) ∈ db') ∧
    (∀ (db : List RoleRow) (now : Int) (x : Role),
      (∀ r ∈ db, ¬(r.id = x.id ∧ r.version = x.version)) →
      RoleModel.Update db now x = (db, .error .editConflict)) ∧
    (∀ (db db' : List ActivityRow) (now : Int) (x x' : Activity),
      ActivityModel.Update db now x = (db', .ok x') →
      x'.version = x.version + 1 ∧
      ∃ r ∈ db, r.id = x.id ∧ r.version = x.version ∧
        ({ r with name := x.name, version := r.version + 1,
                  updatedAt := now } : ActivityRow) ∈ db') ∧
    (∀ (db : List ActivityRow) (now : Int) (x : Activity),
      (∀ r ∈ db, ¬(r.id = x.id ∧ r.version = x.version)) →
      ActivityModel.Update db now x = (db, .error .editConflict)) ∧
    (∀ (db db' : List ProposalRow) (x x' : Proposal),
      ProposalModel.Update db x = (db', .ok x') →
      x'.version = x.version + 1 ∧
      ∃ r ∈ db, r.internalId = x.internalId ∧ r.version = x.version ∧
        ({ r with projectId := x.externalId,
                  version := r.version + 1 } : ProposalRow) ∈ db') ∧
    (∀ (db : List ProposalRow) (x : Proposal),
      (∀ r ∈ db, ¬(r.internalId = x.internalId ∧ r.version = x.version)) →
      ProposalModel.Update db x = (db, .error .editConflict)) ∧
    (∀ (db db' : List AppUserRow) (x x' : AppUser),
      AppUserModel.Update db x = (db', .ok x') →
      x'.version = x.version + 1 ∧
      ∃ r ∈ db, r.internalId = x.internalId ∧ r.version = x.version ∧
        ({ r with firstName := x.firstName, lastName := x.lastName,
                  email := x.email, passwordHash := x.passwordHash,
                  activated := x.activated,
                  version := r.version + 1 } : AppUserRow) ∈ db') ∧
    (∀ (db : List AppUserRow) (x : AppUser),
      (∀ r ∈ db, ¬(r.internalId = x.internalId ∧ r.version = x.version)) →
      AppUserModel.Update db x = (db, .error .editConflict)) ∧
    (∀ (db db' : List UserRow) (now : Int) (x x' : User),
      UserModel.Update db now x = (db', .ok x') →
      x'.version = x.version + 1 ∧
      ∃ r ∈ db, r.id = x.id ∧ r.version = x.version ∧
        ({ r with firstName := x.firstName, lastName := x.lastName,
                  email := x.email, passwordHash := x.passwordHash,
                  activated := x.activated, version := r.version + 1,
                  updatedAt := now } : UserRow) ∈ db') ∧
    (∀ (db : List UserRow) (now : Int) (x : User),
      (∀ r ∈ db, ¬(r.id = x.id ∧ r.version = x.version)) →
      UserModel.Update db now x = (db, .error .editConflict)) ∧
    (∀ (db db' : TimesheetDB) (now : Int) (t t' : Timesheet),
      TimesheetModel.Update db now t = (db', .ok t') →
      t'.version = t.version + 1 ∧
      ∃ r ∈ db.timesheet, r.id = t.id ∧ r.version = t.version ∧
        ({ r with userId := t.userId, projectId := t.projectId,
                  clientId := t.clientId, activityId := t.activityId,
                  workDate := t.workDate, workMinutes := t.workMinutes,
                  description := t.description,
                  version := r.version + 1, updatedAt := now } : TimesheetRow)
          ∈ db'.timesheet) ∧
    (∀ (db : TimesheetDB) (now : Int) (t : Timesheet),
      (∀ r ∈ db.timesheet, ¬(r.id = t.id ∧ r.version = t.version)) →
      TimesheetModel.Update db now t = (db, .error .editConflict)) ∧
    (∀ (db db' : ProjectDB) (now : Int) (p p' : Project),
      ProjectModel.Update db now p = (db', .ok p') →
      p'.version = p.version + 1 ∧
      ∃ r ∈ db.project, r.internalId = p.internalId ∧ r.version = p.version ∧
        ({ r with externalId := p.externalId, proposalId := p.proposalId,
                  name := p.name, status := p.status, geom := p.coordinates,
                  images := normalizeImages p.images,
                  version := r.version + 1, updatedAt := now } : ProjectRow)
          ∈ db'.project) ∧
    (∀ (db : ProjectDB) (now : Int) (p : Project),
      (∀ r ∈ db.project, ¬(r.internalId = p.internalId ∧ r.version = p.version)) →
      ProjectModel.Update db now p = (db, .error .editConflict)) ∧
    (∀ (db : List ClientRow) (c : Client) (r : ClientRow),
      r ∈ db → r.id = c.id →
      ∃ db' c', ClientModel.Update db c = (db', .ok c')) ∧
    (∀ (db db' : List ClientRow) (c c' : Client),
      ClientModel.Update db c = (db', .ok c') →
      ∃ r ∈ db, r.id = c.id ∧ c'.version = r.version ∧
        ({ r with name := c.name, address := c.address, logoURL := c.logoURL,
                  note := c.note } : ClientRow) ∈ db') := by
  refine ⟨?_, ?_, ?_, ?_, ?_, ?_, ?_, ?_, ?_, ?_, ?_, ?_, ?_, ?_, ?_, ?_⟩
  · intro db db' now x x' h
    obtain ⟨r0, hr0, hc0, hb, hmem, _⟩ := guardedUpdate_ok h
    simp only [Bool.and_eq_true, beq_iff_eq] at hc0
    subst hb
    exact ⟨by simp [hc0.2], r0, hr0, hc0.1, hc0.2, hmem⟩
  · intro db now x hst
    apply guardedUpdate_stale
    intro r hr
    by_contra hc
    rw [Bool.not_eq_false] at hc
    simp only [Bool.and_eq_true, beq_iff_eq] at hc
    exact hst r hr hc
  · intro db db' now x x' h
    obtain ⟨r0, hr0, hc0, hb, hmem, _⟩ := guardedUpdate_ok h
    simp only [Bool.and_eq_true, beq_iff_eq] at hc0
    subst hb
    exact ⟨by simp [hc0.2], r0, hr0, hc0.1, hc0.2, hmem⟩
  · intro db now x hst
    apply guardedUpdate_stale
    intro r hr
    by_contra hc
    rw [Bool.not_eq_false] at hc
    simp only [Bool.and_eq_true, beq_iff_eq] at hc
    exact hst r hr hc
  · intro db db' x x' h
    obtain ⟨r0, hr0, hc0, hb, hmem, _⟩ := guardedUpdate_ok h
    simp only [Bool.and_eq_true, beq_iff_eq] at hc0
    subst hb
    exact ⟨by simp [hc0.2], r0, hr0, hc0.1, hc0.2, hmem⟩
  · intro db x hst
    apply guardedUpdate_stale
    intro r hr
    by_contra hc
    rw [Bool.not_eq_false] at hc
    simp only [Bool.and_eq_true, beq_iff_eq] at hc
    exact hst r hr hc
  · intro db db' x x' h
    obtain ⟨r0, hr0, hc0, hb, hmem, _⟩ := guardedUpdate_ok h
    simp only [Bool.and_eq_true, beq_iff_eq] at hc0
    subst hb
    exact ⟨by simp [hc0.2], r0, hr0, hc0.1, hc0.2, hmem⟩
  · intro db x hst
    apply guardedUpdate_stale
    intro r hr
    by_contra hc
    rw [Bool.not_eq_false] at hc
    simp only [Bool.and_eq_true, beq_iff_eq] at hc
    exact hst r hr hc
  · intro db db' now x x' h
    obtain ⟨r0, hr0, hc0, hb, hmem, _⟩ := guardedUpdate_ok h
    simp only [Bool.and_eq_true, beq_iff_eq] at hc0
    subst hb
    exact ⟨by simp [hc0.2], r0, hr0, hc0.1, hc0.2, hmem⟩
  · intro db now x hst
    apply guardedUpdate_stale
    intro r hr
    by_contra hc
    rw [Bool.not_eq_false] at hc
    simp only [Bool.and_eq_true, beq_iff_eq] at hc
    exact hst r hr hc
  · intro db db' now t t' h
    obtain ⟨r, hr, h1, h2, h3, hmem⟩ := timesheetUpdate_ok_char h
    exact ⟨by rw [h3, h2], r, hr, h1, h2, hmem⟩
  · intro db now t hst
    exact timesheetUpdate_stale hst
  · intro db db' now p p' h
    obtain ⟨r, hr, h1, h2, h3, _, _, hmem, _, _, _, _⟩ := projectUpdate_ok_char h
    exact ⟨by rw [h3, h2], r, hr, h1, h2, hmem⟩
  · intro db now p hst
    exact projectUpdate_stale hst
  · intro db c r hr hid
    exact guardedUpdate_ok_of_match hr (by simp [hid])
  · intro db db' c c' h
    obtain ⟨r0, hr0, hc0, hb, hmem, _⟩ := guardedUpdate_ok h
    simp only [beq_iff_eq] at hc0
    subst hb
    exact ⟨r0, hr0, hc0, rfl, hmem⟩

/-- Witness for C1 at concrete data: an update carrying the stale
version 1 against the version-2 client row nevertheless succeeds, and a
role update against an empty table is rejected with an edit conflict. -/
theorem versioned_update_protocol_amended_witness :
    (∃ db' c', ClientModel.Update [clientRowV2] staleClientReq = (db', .ok c')) ∧
    RoleModel.Update [] 7 ({ id := 1, name := ("lead"), version := 1,
                             createdAt := 0, updatedAt := 0 } : Role) =
      ([], .error .editConflict) := by
  constructor
  · exact versioned_update_protocol_amended.2.2.2.2.2.2.2.2.2.2.2.2.2.2.1
      [clientRowV2] staleClientReq clientRowV2 (by simp) (by decide)
  · exact versioned_update_protocol_amended.2.1 [] 7 _ (by simp)

/-- C3 (amended): an explicitly empty client_names list never clears a
project's client associations — ValidateUpdatingProjectInput rejects it
(client_names must contain at least 1 client), so the handler stops
before any store call, and even a direct store update with an empty
client list fails (malformed empty NOT IN/VALUES list) and rolls back;
only the second-generation assignments association clears on an
explicitly empty (non-nil) list, deleting every assignment row of the
project and recreating none. -/
theorem empty_association_update_amended :
    (∀ input : ProjectInput, input.clientNames = some [] →
      updateProjectHandlerValidates input = false) ∧
    (∀ (db : ProjectDB) (now : Int) (p : Project), p.clients = [] →
      ∃ e, ProjectModel.Update db now p = (db, .error e)) ∧
    (∀ (db db' : Part007.ProjectDB) (now : Int) (p p' : Part007.ProjectRequest),
      Part007.ProjectModel.Update db now p = (db', .ok p') →
      p.assignments = some [] →
      db'.assignment =
        db.assignment.filter (fun a => !(sqlEq a.projectId p.externalId))) := by
  refine ⟨?_, ?_, ?_⟩
  · intro input h
    unfold updateProjectHandlerValidates ValidateUpdatingProjectInput Validator.Valid
    have h5 := vupClientNames_some_nil
      (vupStatus (vupName (vupProposalId (vupExternalId { errors := [] } input)
        input) input) input) input h
    obtain ⟨t6, h6⟩ := vupCoordinates_append
      (vupClientNames (vupStatus (vupName (vupProposalId
        (vupExternalId { errors := [] } input) input) input) input) input) input
    obtain ⟨t7, h7⟩ := vupImages_append
      (vupCoordinates (vupClientNames (vupStatus (vupName (vupProposalId
        (vupExternalId { errors := [] } input) input) input) input) input) input)
      input
    rw [h7, h6, h5]
    simp
  · intro db now p he
    by_cases hm : ∃ r ∈ db.project, r.internalId = p.internalId ∧ r.version = p.version
    · exact ⟨.malformedQuery, projectUpdate_empty_clients hm he⟩
    · refine ⟨.editConflict, projectUpdate_stale ?_⟩
      intro r hr hand
      exact hm ⟨r, hr, hand⟩
  · intro db db' now p p' h hasg
    obtain ⟨r, hr, _, _, _, _, _, _, _, hsome, _⟩ := part007Update_ok_char h
    have := hsome [] hasg
    simpa using this

/-- Witness for C3 at the concrete empty-client_names body and store:
the validation gate fails and the store call is rejected without
touching the store. -/
theorem empty_association_update_amended_witness :
    updateProjectHandlerValidates emptyClientNamesInput = false ∧
    ∃ e, ProjectModel.Update sampleProjectDB 9
      { sampleUpdateRequest with clients := [] } = (sampleProjectDB, .error e) :=
  ⟨empty_association_update_amended.1 emptyClientNamesInput rfl,
   empty_association_update_amended.2.1 sampleProjectDB 9
     { sampleUpdateRequest with clients := [] } rfl⟩

/-- C9 (amended): a successful ProjectModel.Update stamps the row's
updated_at with the mutation time and leaves created_at unchanged, but
ProposalModel.Update and AppUserModel.Update touch neither timestamp:
their SET clauses bump only the version (and business fields), so the
stored created_at and updated_at both stay at their prior values. -/
theorem audit_timestamps_amended :
    (∀ (db db' : ProjectDB) (now : Int) (p p' : Project),
      ProjectModel.Update db now p = (db', .ok p') →
      p'.updatedAt = now ∧
      ∃ r ∈ db.project, p'.createdAt = r.createdAt ∧
        ({ r with externalId := p.externalId, proposalId := p.proposalId,
                  name := p.name, status := p.status, geom := p.coordinates,
                  images := normalizeImages p.images,
                  version := r.version + 1, updatedAt := now } : ProjectRow)
          ∈ db'.project) ∧
    (∀ (db db' : List ProposalRow) (x x' : Proposal),
      ProposalModel.Update db x = (db', .ok x') →
      ∃ r ∈ db, r.internalId = x.internalId ∧ r.version = x.version ∧
        ({ r with projectId := x.externalId,
                  version := r.version + 1 } : ProposalRow) ∈ db') ∧
    (∀ (db db' : List AppUserRow) (x x' : AppUser),
      AppUserModel.Update db x = (db', .ok x') →
      ∃ r ∈ db, r.internalId = x.internalId ∧ r.version = x.version ∧
        ({ r with firstName := x.firstName, lastName := x.lastName,
                  email := x.email, passwordHash := x.passwordHash,
                  activated := x.activated,
                  version := r.version + 1 } : AppUserRow) ∈ db') := by
  refine ⟨?_, ?_, ?_⟩
  · intro db db' now p p' h
    obtain ⟨r, hr, _, _, _, h4, h5, hmem, _, _, _, _⟩ := projectUpdate_ok_char h
    exact ⟨h5, r, hr, h4, hmem⟩
  · intro db db' x x' h
    obtain ⟨r0, hr0, hc0, hb, hmem, _⟩ := guardedUpdate_ok h
    simp only [Bool.and_eq_true, beq_iff_eq] at hc0
    exact ⟨r0, hr0, hc0.1, hc0.2, hmem⟩
  · intro db db' x x' h
    obtain ⟨r0, hr0, hc0, hb, hmem, _⟩ := guardedUpdate_ok h
    simp only [Bool.and_eq_true, beq_iff_eq] at hc0
    exact ⟨r0, hr0, hc0.1, hc0.2, hmem⟩

/-- Witness for C9 at the concrete proposal row: the committed row after
a successful update still carries created_at 2 and updated_at 5. -/
theorem audit_timestamps_amended_witness :
    ∃ r ∈ [proposalRow5], r.internalId = proposalReq9.internalId ∧
      r.version = proposalReq9.version ∧
      ({ r with projectId := proposalReq9.externalId,
                version := r.version + 1 } : ProposalRow) ∈
        [{ proposalRow5 with projectId := ("P9X"), version := 2 }] :=
  audit_timestamps_amended.2.1 [proposalRow5]
    [{ proposalRow5 with projectId := ("P9X"), version := 2 }]
    proposalReq9 { proposalReq9 with version := 2 } rfl

/-- C7 (counterexample): the round-trip is not identity on the
coordinates: the body with longitude 1.0000001 passes both create
validators (so it is a valid new entity), the insert succeeds, yet the
fetched project carries coordinates [1, 2] — the %f formatting inside
the stored POINT text keeps 6 decimal places — which differ from the
inserted [1.0000001, 2], while version is 1 as claimed. -/
theorem insert_get_truncates_coordinates :
    (ValidateProjectInputRequired { errors := [] } geoProjectInput).Valid = true ∧
    ValidateProjectInputSemantic { errors := [] } geoProjectInput =
      .ok { errors := [] } ∧
    (ProjectModel.Insert emptyProjectDB 3 geoInsertRequest).2 =
      .ok { geoInsertRequest with internalId := 1, version := 1,
                                  createdAt := 3, updatedAt := 3 } ∧
    ∃ g, ProjectModel.Get (ProjectModel.Insert emptyProjectDB 3 geoInsertRequest).1
        24001 = .ok g ∧
      g.coordinates = some [1, 2] ∧
      geoInsertRequest.coordinates = some [mkRat 10000001 10000000, 2] ∧
      g.coordinates ≠ geoInsertRequest.coordinates ∧
      g.version = 1 := by
  have hfmt1 : fmtFloat6 (mkRat 10000001 10000000) = 1 := by
    unfold fmtFloat6
    have h : ⌊mkRat 10000001 10000000 * 1000000 + 1 / 2⌋ = 1000000 := by
      rw [Int.floor_eq_iff]
      constructor
      · rw [Rat.mkRat_eq_div]
        push_cast
        norm_num
      · rw [Rat.mkRat_eq_div]
        push_cast
        norm_num
    rw [h]
    norm_num
  have hfmt2 : fmtFloat6 2 = 2 := by
    unfold fmtFloat6
    have h : ⌊(2 : Rat) * 1000000 + 1 / 2⌋ = 2000000 := by
      rw [Int.floor_eq_iff]
      constructor <;> norm_num
    rw [h]
    norm_num
  have hgeom : geomFromText geoInsertRequest.coordinates = some [1, 2] := by
    show some [fmtFloat6 (([mkRat 10000001 10000000, (2 : Rat)]).getD 0 0),
               fmtFloat6 (([mkRat 10000001 10000000, (2 : Rat)]).getD 1 0)] =
      some [1, 2]
    rw [show ([mkRat 10000001 10000000, (2 : Rat)]).getD 0 0 =
          mkRat 10000001 10000000 from rfl,
        show ([mkRat 10000001 10000000, (2 : Rat)]).getD 1 0 = (2 : Rat) from rfl,
        hfmt1, hfmt2]
  refine ⟨rfl, rfl, rfl,
    ⟨{ internalId := 1, externalId := some 24001, proposalId := some ("P001-24"),
       name := some ("Sample"), status := some ("active"),
       coordinates := some [1, 2], images := none,
       clients := [acmeProjectClient], version := 1, createdAt := 3,
       updatedAt := 3 }, ?_, rfl, rfl, ?_, rfl⟩⟩
  · rw [← hgeom]
    rfl
  · intro h
    have h1 : some [(1 : Rat), 2] = some [mkRat 10000001 10000000, 2] := h
    simp only [Option.some.injEq, List.cons.injEq] at h1
    have h2 := h1.1
    rw [Rat.mkRat_eq_div] at h2
    push_cast at h2
    norm_num at h2

/-- C7 (amended): inserting a valid new project (fresh external and
proposal id, at least one client) and immediately fetching it by its
external id returns version 1 — the version counter of a freshly created
row starts at 1, per the DDL default — and identical business fields
except the coordinates, which come back as the stored POINT value: the
%f-quantization of the submitted pair (`geomFromText`), identical to the
input exactly when the input is representable in 6 decimal places (in
particular when it is nil). -/
theorem insert_get_roundtrip :
    ∀ (db : ProjectDB) (now : Int) (p : Project) (eid : Int),
      p.externalId = some eid → 1 ≤ eid →
      (∀ r ∈ db.project, r.externalId ≠ p.externalId) →
      (∀ r ∈ db.project, r.proposalId ≠ p.proposalId) →
      p.clients ≠ [] →
      ∃ db' p', ProjectModel.Insert db now p = (db', .ok p') ∧
        p'.version = 1 ∧
        ∃ g, ProjectModel.Get db' eid = .ok g ∧
          g.externalId = p.externalId ∧ g.proposalId = p.proposalId ∧
          g.name = p.name ∧ g.status = p.status ∧
          g.coordinates = geomFromText p.coordinates ∧ g.images = p.images ∧
          g.version = 1 := by
  intro db now p eid h1 h2 h3 h4 h5
  have hany1 : db.project.any (fun r => r.externalId == p.externalId) = false := by
    rw [List.any_eq_false]
    intro r hr
    simpa using h3 r hr
  have hany2 : db.project.any (fun r => r.proposalId == p.proposalId) = false := by
    rw [List.any_eq_false]
    intro r hr
    simpa using h4 r hr
  have hce : ((p.clients.map (fun c => c.clientID)).isEmpty) = false := by
    rw [List.isEmpty_eq_false]
    simp only [ne_eq, List.map_eq_nil_iff]
    exact h5
  have hins : ProjectModel.Insert db now p =
      ({ db with
          project := db.project ++
            [{ internalId := db.nextInternalId, externalId := p.externalId,
               proposalId := p.proposalId, name := p.name, status := p.status,
               geom := geomFromText p.coordinates, images := p.images,
               version := 1, createdAt := now, updatedAt := now }],
          projectClient := db.projectClient ++
            (p.clients.map (fun c => c.clientID)).map
              (fun c => (db.nextInternalId, c)),
          nextInternalId := db.nextInternalId + 1 },
       .ok { p with internalId := db.nextInternalId, version := 1,
                    createdAt := now, updatedAt := now }) := by
    simp only [ProjectModel.Insert]
    rw [if_neg (by simp [hany1]), if_neg (by simp [hany2]),
        if_neg (by simp [hce])]
  rw [hins]
  refine ⟨_, _, rfl, rfl, ?_⟩
  have hfnone : db.project.find? (fun r => r.externalId == some eid) = none := by
    rw [List.find?_eq_none]
    intro r hr
    have := h3 r hr
    rw [h1] at this
    simpa using this
  have hfind : (db.project ++
      [({ internalId := db.nextInternalId, externalId := p.externalId,
          proposalId := p.proposalId, name := p.name, status := p.status,
          geom := geomFromText p.coordinates, images := p.images, version := 1,
          createdAt := now, updatedAt := now } : ProjectRow)]).find?
        (fun r => r.externalId == some eid) =
      some ({ internalId := db.nextInternalId, externalId := p.externalId,
              proposalId := p.proposalId, name := p.name, status := p.status,
              geom := geomFromText p.coordinates, images := p.images,
              version := 1, createdAt := now, updatedAt := now } : ProjectRow) := by
    rw [List.find?_append, hfnone]
    simp [List.find?, h1]
  simp only [ProjectModel.Get]
  rw [if_neg (by omega)]
  rw [hfind]
  exact ⟨_, rfl, rfl, rfl, rfl, rfl, rfl, rfl, rfl⟩

/-- Witness for C7's amended round-trip at the concrete 7-decimal body:
inserting it into the empty store and fetching project 24001 yields
version 1 and the %f-quantized coordinates. -/
theorem insert_get_roundtrip_witness :
    ∃ db' p', ProjectModel.Insert emptyProjectDB 3 geoInsertRequest =
        (db', .ok p') ∧
      p'.version = 1 ∧
      ∃ g, ProjectModel.Get db' 24001 = .ok g ∧
        g.externalId = geoInsertRequest.externalId ∧
        g.proposalId = geoInsertRequest.proposalId ∧
        g.name = geoInsertRequest.name ∧
        g.status = geoInsertRequest.status ∧
        g.coordinates = geomFromText geoInsertRequest.coordinates ∧
        g.images = geoInsertRequest.images ∧
        g.version = 1 :=
  insert_get_roundtrip emptyProjectDB 3 geoInsertRequest 24001
    rfl (by decide) (by decide) (by decide) (by decide)
